import Mathlib

/-!
Verification of the s3dock content/pointer model against its specification.

Strings from the Go sources are modelled as lists of characters (`Str`);
all key-manipulation functions are translated directly from the Go code
(`internal/metadata.go`, `internal/pointer.go`, `internal/current.go`,
`internal/pusher.go`, `internal/s3.go`, `internal/audit.go`, the current
tagger/promoter revision, and the spec for the puller, whose implementation
file is not part of the snapshot).  The object store is modelled as a map
from keys to abstract contents, and every S3-facing operation is embedded
as a function that returns its result together with the ordered trace of
store operations it issued, with transport failures injected through an
environment of per-key success flags.
-/

namespace S3dock

/-- Keys, key fragments and other Go strings, modelled as lists of
characters (Go indexes bytes; every string these functions touch is
ASCII, where bytes and characters coincide). -/
abbrev Str : Type := List Char

/-- Convenience conversion from a Lean string literal. -/
def str (s : String) : Str := s.data

/-- Go `strings.Split(s, sep)` for a one-character separator: the list of
(possibly empty) fragments between occurrences of `sep`.  `Split("", sep)`
returns one empty fragment, as in Go. -/
def splitChar (sep : Char) : Str → List Str
  | [] => [[]]
  | c :: rest =>
    match splitChar sep rest with
    | [] => if c = sep then [[], []] else [[c]]
    | h :: t => if c = sep then [] :: h :: t else (c :: h) :: t

/-- Go `strings.SplitN(s, sep, 2)` for a one-character separator: split at
the first occurrence only; a string without the separator yields a
one-element list. -/
def splitN2 (sep : Char) (s : Str) : List Str :=
  let a := s.takeWhile (fun c => c ≠ sep)
  match s.drop a.length with
  | [] => [s]
  | _ :: rest => [a, rest]

/-- Go `strings.Count(s, c)` for a one-character pattern. -/
def countChar (c : Char) (s : Str) : Nat := s.count c

/-- Go `strings.LastIndex(s, c)` for a one-character pattern: index of the
last occurrence, `-1` if absent. -/
def lastIndexChar (s : Str) (c : Char) : Int :=
  match s with
  | [] => -1
  | x :: xs =>
    let r := lastIndexChar xs c
    if r = -1 then (if x = c then 0 else -1) else r + 1

/-- Go `strings.Index(s, pat)` (substring search), with the running index
carried as an accumulator. -/
def indexOfSubAux (pat : Str) : Str → Nat → Int
  | [], i => if pat = [] then Int.ofNat i else -1
  | c :: rest, i =>
    if pat.isPrefixOf (c :: rest) then Int.ofNat i else indexOfSubAux pat rest (i + 1)

/-- Go `strings.Index(s, pat)`: index of the first occurrence of the
substring `pat` in `s`, `-1` if absent. -/
def indexOfSub (s pat : Str) : Int := indexOfSubAux pat s 0

/-- Go `strings.TrimPrefix(s, p)`: drop `p` from the front when present. -/
def trimPfx (p s : Str) : Str :=
  if p.isPrefixOf s then s.drop p.length else s

/-- Go `strings.TrimSuffix(s, suf)`: drop `suf` from the end when present. -/
def trimSuffix (suf s : Str) : Str :=
  if suf.isSuffixOf s then s.take (s.length - suf.length) else s

/-- Characters of `s` after its last occurrence of `c` (all of `s` when `c`
is absent). -/
def afterLast (c : Char) (s : Str) : Str :=
  (s.reverse.takeWhile (fun x => x ≠ c)).reverse

/-- Go `path/filepath.Base` for slash-separated paths: `"."` for the empty
path, `"/"` when the path is all slashes, otherwise the last component
after trailing slashes are removed. -/
def pathBase (s : Str) : Str :=
  if s = [] then str "." else
  let t := (s.reverse.dropWhile (fun x => x = '/')).reverse
  if t = [] then str "/" else afterLast '/' t

/-- Go `strings.Contains(s, c)` for a one-character pattern. -/
def containsChar (c : Char) (s : Str) : Bool := s.contains c

/-- Blob key `images/{app}/{ym}/{app}-{gitTime}-{gitHash}.tar.gz`, as built
inline by `ImagePusher.Push`, `ImageTagger.Tag` and `ImagePromoter.Promote`
(`fmt.Sprintf` over the app name, wall-clock year-month, git time and git
hash). -/
def blobKey (app ym gitTime gitHash : Str) : Str :=
  str "images/" ++ app ++ str "/" ++ ym ++ str "/" ++
    app ++ str "-" ++ gitTime ++ str "-" ++ gitHash ++ str ".tar.gz"

/-- `GenerateTagKey` from `internal/pointer.go`: `tags/{app}/{version}.json`. -/
def GenerateTagKey (appName version : Str) : Str :=
  str "tags/" ++ appName ++ str "/" ++ version ++ str ".json"

/-- `GeneratePointerKey` from `internal/pointer.go`:
`pointers/{app}/{environment}.json`. -/
def GeneratePointerKey (appName environment : Str) : Str :=
  str "pointers/" ++ appName ++ str "/" ++ environment ++ str ".json"

/-- `GenerateMetadataKey` from `internal/metadata.go`: for a key of length
at least 11 starting with `images/`, chop the last seven characters (the
`.tar.gz` extension) and append `.json`; otherwise append `.json` to the
whole key. -/
def GenerateMetadataKey (imageS3Key : Str) : Str :=
  if imageS3Key.length ≥ 11 ∧ imageS3Key.take 7 = str "images/" then
    imageS3Key.take (imageS3Key.length - 7) ++ str ".json"
  else
    imageS3Key ++ str ".json"

/-- `GenerateArchiveKeys` from `internal/metadata.go`: archive blob and
sidecar keys `archive/…-archived-on-{ts}.tar.gz` / `.json`; for keys not of
the `images/` shape both results are the empty string, as in the source. -/
def GenerateArchiveKeys (imageS3Key : Str) (timestamp : Str) : Str × Str :=
  if imageS3Key.length ≥ 11 ∧ imageS3Key.take 7 = str "images/" then
    let withoutExtension := imageS3Key.take (imageS3Key.length - 7)
    (str "archive/" ++ withoutExtension.drop 7 ++ str "-archived-on-" ++ timestamp ++ str ".tar.gz",
     str "archive/" ++ withoutExtension.drop 7 ++ str "-archived-on-" ++ timestamp ++ str ".json")
  else ([], [])

/-- `ExtractAppName` from `internal/pusher.go`: the fragment of an image
reference between the last `/` and the first following `:`. -/
def extractAppName (imageRef : Str) : Str :=
  (afterLast '/' imageRef).takeWhile (fun c => c ≠ ':')

/-- Error values of `ParseImageReference` (`internal/pointer.go`): the
"invalid image reference format" and "invalid tag format" messages. -/
inductive ParseErr where
  | invalidRef
  | invalidTag
  deriving DecidableEq, Repr

/-- `ParseImageReference` from `internal/pointer.go`: split on `:` into
exactly two parts, require exactly two dashes in the tag part, split the
tag part at its last dash into `gitTime` and `gitHash`, and validate that
`gitHash` has at least 5 characters and `gitTime` is 13 characters with a
dash at index 8. -/
def parseImageReference (imageRef : Str) : Except ParseErr (Str × Str × Str) :=
  match splitChar ':' imageRef with
  | [appName, tagPart] =>
    if countChar '-' tagPart ≠ 2 then .error .invalidTag
    else
      let dashIndex := lastIndexChar tagPart '-'
      if dashIndex = -1 then .error .invalidTag
      else
        let gitHash := tagPart.drop (dashIndex.toNat + 1)
        let gitTime := tagPart.take dashIndex.toNat
        if gitHash.length < 5 ∨ gitTime.length ≠ 13 ∨ gitTime.get? 8 ≠ some '-' then
          .error .invalidTag
        else .ok (appName, gitTime, gitHash)
  | _ => .error .invalidRef

/-- Error values of `CurrentService.extractImageReferenceFromPath`
(`internal/current.go`). -/
inductive ExtractErr where
  | notTarGz
  | badFilename
  | badTimestampHash
  | badTimestamp
  | badHash
  deriving DecidableEq, Repr

/-- `CurrentService.extractImageReferenceFromPath` from
`internal/current.go`: require the `.tar.gz` suffix, take the base filename,
split it at the first dash into app name and `timestamp-hash`, require
exactly two dashes there, split at the last dash, validate the timestamp
(13 characters, dash at index 8) and the hash (at least 5 characters), and
rebuild `{app}:{timestamp}-{hash}`. -/
def extractImageReferenceFromPath (s3Path : Str) : Except ExtractErr Str :=
  if ¬ (str ".tar.gz").isSuffixOf s3Path then .error .notTarGz
  else
    let baseName := trimSuffix (str ".tar.gz") s3Path
    let filename := pathBase baseName
    match splitN2 '-' filename with
    | [appName, timestampHash] =>
      if countChar '-' timestampHash ≠ 2 then .error .badTimestampHash
      else
        let lastDashIndex := lastIndexChar timestampHash '-'
        if lastDashIndex = -1 then .error .badTimestampHash
        else
          let timestamp := timestampHash.take lastDashIndex.toNat
          let hash := timestampHash.drop (lastDashIndex.toNat + 1)
          if timestamp.length ≠ 13 ∨ timestamp.get? 8 ≠ some '-' then .error .badTimestamp
          else if hash.length < 5 then .error .badHash
          else .ok (appName ++ str ":" ++ timestamp ++ str "-" ++ hash)
    | _ => .error .badFilename

/-- `extractBaseEndpoint` from `internal/s3.go`: strip the protocol, look
for the first `.s3.`; when found at a positive index, the hostname label
before it is the bucket and the base endpoint is the protocol plus
everything from `s3.` onwards; otherwise both results are empty.  (The two
`TrimPrefix` assignments to `baseEndpoint` in the source are dead stores,
unconditionally overwritten by the following `if`/`else`.) -/
def extractBaseEndpoint (endpoint : Str) : Str × Str :=
  let e := trimPfx (str "http://") (trimPfx (str "https://") endpoint)
  match indexOfSub e (str ".s3.") with
  | Int.ofNat idx =>
    if idx > 0 then
      let bucket := e.take idx
      let rest := e.drop (idx + 1)
      if (str "https://").isPrefixOf endpoint then (str "https://" ++ rest, bucket)
      else (str "http://" ++ rest, bucket)
    else ([], [])
  | _ => ([], [])

/-- The list-client key prefix chosen by `NewS3Client` (`internal/s3.go`):
`{bucket}/` when the endpoint embeds the bucket as a hostname label before
`.s3.`, empty otherwise. -/
def computeKeyPfx (endpoint : Str) : Str :=
  let p := extractBaseEndpoint endpoint
  if p.1 ≠ [] ∧ p.2 ≠ [] then p.2 ++ str "/" else []

/-- `S3ClientImpl.List` from `internal/s3.go` over a store modelled by its
list of keys: the paginator returns every stored key extending
`keyPfx ++ pfx` (standard prefix listing), and the client strips `keyPfx`
from each returned key when `keyPfx` is non-empty and present. -/
def listKeys (keyPfx : Str) (storeKeys : List Str) (pfx : Str) : List Str :=
  let actualPfx := keyPfx ++ pfx
  (storeKeys.filter (fun k => actualPfx.isPrefixOf k)).map
    (fun k => if keyPfx ≠ [] ∧ keyPfx.isPrefixOf k then k.drop keyPfx.length else k)

/-- Wall-clock instant, carried as its two Go format projections:
`Format("200601")` (year-month) and `Format("20060102-1504")`
(minute-resolution stamp). -/
structure TimeStamp where
  ym : Str
  minuteStamp : Str
  deriving DecidableEq, Repr

/-- `TargetType` from `internal/pointer.go`. -/
inductive TargetType where
  | image
  | tag
  deriving DecidableEq, Repr

/-- `PointerMetadata` from `internal/pointer.go`; `promoted_at` is kept as
the abstract `TimeStamp`. -/
structure PointerMetadata where
  targetType : TargetType
  targetPath : Str
  promotedAt : TimeStamp
  promotedBy : Str
  gitHash : Str
  gitTime : Str
  sourceImage : Str
  sourceTag : Str
  deriving DecidableEq, Repr

/-- `ImageMetadata` from `internal/metadata.go`. -/
structure ImageMetadata where
  checksum : Str
  size : Int
  createdAt : TimeStamp
  gitHash : Str
  gitTime : Str
  imageTag : Str
  appName : Str
  deriving DecidableEq, Repr

/-- `EventType` from `internal/audit.go`. -/
inductive EventType where
  | pushE
  | tagE
  | promotionE
  deriving DecidableEq, Repr

/-- Rendering of an `EventType` into its on-disk string, as used by
`GenerateAuditKey`. -/
def eventTypeStr : EventType → Str
  | .pushE => str "push"
  | .tagE => str "tag"
  | .promotionE => str "promotion"

/-- The three typed `details` payloads of `internal/audit.go`. -/
inductive AuditDetails where
  | pushD (imageReference s3Path checksum : Str) (size : Int)
      (wasSkipped wasArchived : Bool)
  | tagD (imageReference version tagPath : Str)
  | promotionD (environment source sourceType pointerPath previousTarget : Str)
  deriving DecidableEq, Repr

/-- `AuditEvent` from `internal/audit.go`. -/
structure AuditEvent where
  eventType : EventType
  timestamp : TimeStamp
  user : Str
  appName : Str
  gitHash : Str
  gitTime : Str
  details : AuditDetails
  deriving DecidableEq, Repr

/-- `GenerateAuditKey` from `internal/audit.go`:
`audit/{app}/{YYYYMM}/{YYYYMMDD-HHMM}-{event}-{gitHash}.json`, both time
fragments derived from the event's timestamp. -/
def GenerateAuditKey (appName : Str) (timestamp : TimeStamp)
    (eventType : EventType) (gitHash : Str) : Str :=
  str "audit/" ++ appName ++ str "/" ++ timestamp.ym ++ str "/" ++
    timestamp.minuteStamp ++ str "-" ++ eventTypeStr eventType ++ str "-" ++
    gitHash ++ str ".json"

/-- `CreatePushEvent` from `internal/audit.go` (the Go version's error
result is always `nil`: `getCurrentUser` failures fall back to the string
`"unknown"`, which the `user` argument already accounts for). -/
def CreatePushEvent (appName gitHash gitTime imageRef s3Path checksum : Str)
    (size : Int) (wasSkipped wasArchived : Bool) (user : Str) (now : TimeStamp) :
    AuditEvent :=
  { eventType := .pushE, timestamp := now, user, appName, gitHash, gitTime,
    details := .pushD imageRef s3Path checksum size wasSkipped wasArchived }

/-- `CreateTagEvent` from `internal/audit.go`. -/
def CreateTagEvent (appName gitHash gitTime imageRef version tagPath : Str)
    (user : Str) (now : TimeStamp) : AuditEvent :=
  { eventType := .tagE, timestamp := now, user, appName, gitHash, gitTime,
    details := .tagD imageRef version tagPath }

/-- `CreatePromotionEvent` from `internal/audit.go`. -/
def CreatePromotionEvent (appName gitHash gitTime environment source
    sourceType pointerPath previousTarget : Str) (user : Str) (now : TimeStamp) :
    AuditEvent :=
  { eventType := .promotionE, timestamp := now, user, appName, gitHash, gitTime,
    details := .promotionD environment source sourceType pointerPath previousTarget }

/-- `CreateImagePointer` from `internal/pointer.go`. -/
def CreateImagePointer (imageS3Path gitHash gitTime sourceImage : Str)
    (user : Str) (now : TimeStamp) : PointerMetadata :=
  { targetType := .image, targetPath := imageS3Path, promotedAt := now,
    promotedBy := user, gitHash, gitTime, sourceImage, sourceTag := [] }

/-- `CreateTagPointer` from `internal/pointer.go`. -/
def CreateTagPointer (tagS3Path gitHash gitTime sourceImage sourceTag : Str)
    (user : Str) (now : TimeStamp) : PointerMetadata :=
  { targetType := .tag, targetPath := tagS3Path, promotedAt := now,
    promotedBy := user, gitHash, gitTime, sourceImage, sourceTag }

/-- Stored object contents, abstracting the JSON bodies: a pointer JSON, an
image-metadata JSON, a blob (identified by its bytes' checksum), an audit
record, or anything that parses as none of the expected shapes. -/
inductive Content where
  | pointerC (p : PointerMetadata)
  | imageMetaC (m : ImageMetadata)
  | blobC (checksum : Str)
  | auditC (e : AuditEvent)
  | otherC
  deriving DecidableEq, Repr

/-- `PointerMetadataFromJSON`: succeeds exactly on pointer contents. -/
def pointerFromContent : Content → Option PointerMetadata
  | .pointerC p => some p
  | _ => none

/-- `ImageMetadataFromJSON`: succeeds exactly on image-metadata contents. -/
def imageMetaFromContent : Content → Option ImageMetadata
  | .imageMetaC m => some m
  | _ => none

/-- One S3 call, as recorded in an operation trace (in issue order). -/
inductive S3Op where
  | head (key : Str)
  | download (key : Str)
  | upload (key : Str) (content : Content)
  | copy (src dst : Str)
  | delete (key : Str)
  deriving DecidableEq, Repr

/-- The object-store environment: initial contents plus per-operation success
flags through which transport failures are injected.  Reads are answered
from `store`; none of the embedded operations reads a key after writing
it, so a single read-map is faithful. -/
structure S3Env where
  store : Str → Option Content
  headOk : Str → Bool
  downloadOk : Str → Bool
  uploadOk : Str → Bool
  copyOk : Str → Str → Bool
  deleteOk : Str → Bool

/-- `S3Client.Exists`: `none` models a HEAD transport error, otherwise
whether the key is present. -/
def s3head (env : S3Env) (k : Str) : Option Bool :=
  if env.headOk k then some (env.store k).isSome else none

/-- `S3Client.Download`: `none` models a transport error or a missing
object (both are errors in the Go code), otherwise the contents. -/
def s3download (env : S3Env) (k : Str) : Option Content :=
  if env.downloadOk k then env.store k else none

/-- Failure kinds of the embedded operations (the Go errors, by site). -/
inductive Err where
  | gitFailed
  | headFailed
  | exportFailed
  | parseTimeFailed
  | downloadFailed
  | parseFailed
  | copyFailed
  | deleteFailed
  | uploadFailed
  | auditFailed
  | parseRefFailed
  | imageNotFound
  | tagNotFound
  | pointerNotFound
  | needsAppName
  | extractFailed
  | runtimeCheckFailed
  | downloadExhausted
  | importFailed
  deriving DecidableEq, Repr

/-- `S3AuditLogger.LogEvent` from `internal/audit.go`: serialize the event
and upload it under its audit key (serialization never fails in the
model). -/
def logEvent (env : S3Env) (e : AuditEvent) :
    Except Err Unit × List S3Op :=
  let auditKey := GenerateAuditKey e.appName e.timestamp e.eventType e.gitHash
  if env.uploadOk auditKey then (.ok (), [.upload auditKey (.auditC e)])
  else (.error .auditFailed, [.upload auditKey (.auditC e)])

/-- `PushResult` from `internal/results.go`. -/
structure PushResult where
  imageRef : Str
  s3Key : Str
  checksum : Str
  size : Int
  skipped : Bool
  archived : Bool
  deriving DecidableEq, Repr

/-- `ImagePusher.archiveExistingFiles` from `internal/pusher.go`: copy the
blob and the sidecar to their archive keys, then delete both originals, in
that order, stopping at the first failure. -/
def archiveExistingFiles (env : S3Env) (timestamp : Str)
    (imageS3Key metadataKey : Str) : Except Err Unit × List S3Op :=
  let keys := GenerateArchiveKeys imageS3Key timestamp
  let archiveImageKey := keys.1
  let archiveMetaKey := keys.2
  if env.copyOk imageS3Key archiveImageKey = false then
    (.error .copyFailed, [.copy imageS3Key archiveImageKey])
  else if env.copyOk metadataKey archiveMetaKey = false then
    (.error .copyFailed,
     [.copy imageS3Key archiveImageKey, .copy metadataKey archiveMetaKey])
  else if env.deleteOk imageS3Key = false then
    (.error .deleteFailed,
     [.copy imageS3Key archiveImageKey, .copy metadataKey archiveMetaKey,
      .delete imageS3Key])
  else if env.deleteOk metadataKey = false then
    (.error .deleteFailed,
     [.copy imageS3Key archiveImageKey, .copy metadataKey archiveMetaKey,
      .delete imageS3Key, .delete metadataKey])
  else
    (.ok (),
     [.copy imageS3Key archiveImageKey, .copy metadataKey archiveMetaKey,
      .delete imageS3Key, .delete metadataKey])

/-- The shared upload tail of `ImagePusher.Push` (`internal/pusher.go`
lines 184–221): upload the blob, upload the sidecar, then attempt the push
audit event, whose failure is ignored. -/
def pushUploadPhase (env : S3Env) (now : TimeStamp) (user : Str)
    (appName gitHash gitTime imageRef s3Key metadataKey : Str)
    (metadata : ImageMetadata) (wasArchived : Bool) (tPre : List S3Op) :
    Except Err PushResult × List S3Op :=
  if env.uploadOk s3Key = false then
    (.error .uploadFailed, tPre ++ [.upload s3Key (.blobC metadata.checksum)])
  else if env.uploadOk metadataKey = false then
    (.error .uploadFailed,
     tPre ++ [.upload s3Key (.blobC metadata.checksum),
              .upload metadataKey (.imageMetaC metadata)])
  else
    let ev := CreatePushEvent appName gitHash gitTime imageRef s3Key
      metadata.checksum metadata.size false wasArchived user now
    let la := logEvent env ev
    (.ok { imageRef, s3Key, checksum := metadata.checksum,
           size := metadata.size, skipped := false, archived := wasArchived },
     tPre ++ [.upload s3Key (.blobC metadata.checksum),
              .upload metadataKey (.imageMetaC metadata)] ++ la.2)

/-- `ImagePusher.Push` from `internal/pusher.go`.  The collaborators that
cannot touch the object store are abstracted into inputs: `gitOk`,
`gitHash`, `gitTime` stand for the two git reads, `exportOk` for the
docker export, `parseTimeOk` for `ParseGitTime`, and
`newChecksum`/`newSize` for the streamed normalize+gzip+MD5 pipeline over
the exported bytes.  Everything S3-facing follows the source: probe the
sidecar, compute the new metadata, then skip (equal checksum, audit-only),
or archive-then-replace (different checksum), or plain upload (no
sidecar); the final audit write's failure is ignored. -/
def push (env : S3Env) (now : TimeStamp) (user : Str) (archiveTs : Str)
    (gitOk : Bool) (gitHash gitTime : Str) (exportOk parseTimeOk : Bool)
    (newChecksum : Str) (newSize : Int) (imageRef : Str) :
    Except Err PushResult × List S3Op :=
  if gitOk = false then (.error .gitFailed, []) else
  let appName := extractAppName imageRef
  let s3Key := blobKey appName now.ym gitTime gitHash
  let metadataKey := GenerateMetadataKey s3Key
  match s3head env metadataKey with
  | none => (.error .headFailed, [.head metadataKey])
  | some present =>
    if exportOk = false then (.error .exportFailed, [.head metadataKey]) else
    if parseTimeOk = false then (.error .parseTimeFailed, [.head metadataKey]) else
    let metadata : ImageMetadata :=
      { checksum := newChecksum, size := newSize, createdAt := now,
        gitHash, gitTime, imageTag := imageRef, appName }
    if present then
      match s3download env metadataKey with
      | none => (.error .downloadFailed, [.head metadataKey, .download metadataKey])
      | some c =>
        match imageMetaFromContent c with
        | none => (.error .parseFailed, [.head metadataKey, .download metadataKey])
        | some existingMetadata =>
          if existingMetadata.checksum = newChecksum then
            let ev := CreatePushEvent appName gitHash gitTime imageRef s3Key
              newChecksum newSize true false user now
            let la := logEvent env ev
            (.ok { imageRef, s3Key, checksum := newChecksum, size := newSize,
                   skipped := true, archived := false },
             [.head metadataKey, .download metadataKey] ++ la.2)
          else
            match archiveExistingFiles env archiveTs s3Key metadataKey with
            | (.error e, tA) =>
              (.error e, [.head metadataKey, .download metadataKey] ++ tA)
            | (.ok _, tA) =>
              pushUploadPhase env now user appName gitHash gitTime imageRef
                s3Key metadataKey metadata true
                ([.head metadataKey, .download metadataKey] ++ tA)
    else
      pushUploadPhase env now user appName gitHash gitTime imageRef
        s3Key metadataKey metadata false [.head metadataKey]

/-- The upload-and-audit tail shared by both promotion entry points
(current tagger revision): upload the environment pointer, then create and
write the promotion audit event, whose failure is fatal. -/
def promoteUpload (env : S3Env) (now : TimeStamp) (user : Str)
    (appName environment source sourceType : Str) (pointer : PointerMetadata)
    (previousTarget : Str) (t : List S3Op) : Except Err Unit × List S3Op :=
  let envKey := GeneratePointerKey appName environment
  if env.uploadOk envKey = false then
    (.error .uploadFailed, t ++ [.upload envKey (.pointerC pointer)])
  else
    let ev := CreatePromotionEvent appName pointer.gitHash pointer.gitTime
      environment source sourceType envKey previousTarget user now
    let la := logEvent env ev
    match la.1 with
    | .error _ => (.error .auditFailed, t ++ [.upload envKey (.pointerC pointer)] ++ la.2)
    | .ok _ => (.ok (), t ++ [.upload envKey (.pointerC pointer)] ++ la.2)

/-- The existing-pointer probe shared by both promotion entry points
(current tagger revision): fetch the environment pointer if any — HEAD,
download and parse failures are swallowed, leaving the previous target
empty — and skip entirely (no write, no audit) when the existing
`target_path` equals the new pointer's. -/
def promoteTail (env : S3Env) (now : TimeStamp) (user : Str)
    (appName environment source sourceType : Str) (pointer : PointerMetadata)
    (tPre : List S3Op) : Except Err Unit × List S3Op :=
  let envKey := GeneratePointerKey appName environment
  match s3head env envKey with
  | some true =>
    match s3download env envKey with
    | some c =>
      match pointerFromContent c with
      | some existingPointer =>
        if existingPointer.targetPath = pointer.targetPath then
          (.ok (), tPre ++ [.head envKey, .download envKey])
        else
          promoteUpload env now user appName environment source sourceType
            pointer existingPointer.targetPath (tPre ++ [.head envKey, .download envKey])
      | none =>
        promoteUpload env now user appName environment source sourceType
          pointer [] (tPre ++ [.head envKey, .download envKey])
    | none =>
      promoteUpload env now user appName environment source sourceType
        pointer [] (tPre ++ [.head envKey, .download envKey])
  | _ =>
    promoteUpload env now user appName environment source sourceType
      pointer [] (tPre ++ [.head envKey])

/-- `ImagePromoter.Promote` (current tagger revision, with the idempotent
skip and the fatal audit write): parse the image-reference source, verify
the blob exists under the current year-month key, build an image-variant
pointer and hand over to the shared tail.  A source without a colon is
rejected. -/
def promote (env : S3Env) (now : TimeStamp) (user : Str)
    (source environment : Str) : Except Err Unit × List S3Op :=
  if containsChar ':' source then
    match parseImageReference source with
    | .error _ => (.error .parseRefFailed, [])
    | .ok (appName, gitTime, gitHash) =>
      let imageS3Path := blobKey appName now.ym gitTime gitHash
      match s3head env imageS3Path with
      | none => (.error .headFailed, [.head imageS3Path])
      | some false => (.error .imageNotFound, [.head imageS3Path])
      | some true =>
        let pointer := CreateImagePointer imageS3Path gitHash gitTime source user now
        promoteTail env now user appName environment source (str "image")
          pointer [.head imageS3Path]
  else (.error .needsAppName, [])

/-- `ImagePromoter.PromoteFromTag` (current tagger revision): verify and
fetch the tag pointer, build a tag-variant environment pointer whose
target is the tag key, and hand over to the shared tail (idempotent skip,
fatal audit). -/
def promoteFromTag (env : S3Env) (now : TimeStamp) (user : Str)
    (appName version environment : Str) : Except Err Unit × List S3Op :=
  let tagKey := GenerateTagKey appName version
  match s3head env tagKey with
  | none => (.error .headFailed, [.head tagKey])
  | some false => (.error .tagNotFound, [.head tagKey])
  | some true =>
    match s3download env tagKey with
    | none => (.error .downloadFailed, [.head tagKey, .download tagKey])
    | some c =>
      match pointerFromContent c with
      | none => (.error .parseFailed, [.head tagKey, .download tagKey])
      | some tagPointer =>
        let envPointer := CreateTagPointer tagKey tagPointer.gitHash
          tagPointer.gitTime tagPointer.sourceImage version user now
        let sourceRef := appName ++ str ":" ++ version
        promoteTail env now user appName environment sourceRef (str "tag")
          envPointer [.head tagKey, .download tagKey]

/-- `ImageTagger.Tag` (current tagger revision): parse the image
reference, verify the blob exists under the current year-month key, upload
an image-variant pointer at the tag key, then attempt the tag audit event,
whose failure is ignored. -/
def tagOp (env : S3Env) (now : TimeStamp) (user : Str)
    (imageRef version : Str) : Except Err Unit × List S3Op :=
  match parseImageReference imageRef with
  | .error _ => (.error .parseRefFailed, [])
  | .ok (appName, gitTime, gitHash) =>
    let imageS3Path := blobKey appName now.ym gitTime gitHash
    match s3head env imageS3Path with
    | none => (.error .headFailed, [.head imageS3Path])
    | some false => (.error .imageNotFound, [.head imageS3Path])
    | some true =>
      let tagKey := GenerateTagKey appName version
      let pointer := CreateImagePointer imageS3Path gitHash gitTime imageRef user now
      if env.uploadOk tagKey = false then
        (.error .uploadFailed, [.head imageS3Path, .upload tagKey (.pointerC pointer)])
      else
        let ev := CreateTagEvent appName gitHash gitTime imageRef version tagKey user now
        let la := logEvent env ev
        (.ok (), [.head imageS3Path, .upload tagKey (.pointerC pointer)] ++ la.2)

/-- Outcome of the fuelled resolver. -/
inductive ResolveResult where
  | okR (path : Str)
  | errR
  | fuelOut
  deriving DecidableEq, Repr

/-- `ResolveImagePath` from `internal/pointer.go`, with explicit fuel: an
image pointer resolves to its target path; a tag pointer is downloaded,
parsed and resolved recursively.  The Go function has no fuel — its value
at a pointer is the common value of `resolveImagePathFuel` for every
sufficiently large fuel, and it diverges exactly when every fuel runs
out. -/
def resolveImagePathFuel (env : S3Env) : Nat → PointerMetadata → ResolveResult
  | 0, _ => .fuelOut
  | Nat.succ n, p =>
    match p.targetType with
    | .image => .okR p.targetPath
    | .tag =>
      match s3download env p.targetPath with
      | none => .errR
      | some c =>
        match pointerFromContent c with
        | none => .errR
        | some tagPointer => resolveImagePathFuel env n tagPointer

/-- One collaborator call issued by a pull, in issue order: object-store
HEAD, small-object download, blob stream-download into the temp file,
runtime image-presence check, runtime import. -/
inductive PullOp where
  | s3Head (key : Str)
  | s3Download (key : Str)
  | blobDownload (key : Str)
  | runtimeHasCheck (ref : Str)
  | runtimeImport (ref : Str)
  deriving DecidableEq, Repr

/-- Environment of a pull: store contents and success flags as for
`S3Env`, plus the container runtime's presence answer per reference
(`none` models a failing check), the MD5 that attempt number `n` of the
blob stream-download leaves in the temp file (`none` models a transport
failure of that attempt), and whether the runtime import succeeds. -/
structure PullEnv where
  store : Str → Option Content
  headOk : Str → Bool
  downloadOk : Str → Bool
  runtimeHas : Str → Option Bool
  attemptChecksum : Nat → Option Str
  importOk : Bool

/-- `PullEnv` analogue of `s3head`. -/
def pullHead (env : PullEnv) (k : Str) : Option Bool :=
  if env.headOk k then some (env.store k).isSome else none

/-- `PullEnv` analogue of `s3download`. -/
def pullDownload (env : PullEnv) (k : Str) : Option Content :=
  if env.downloadOk k then env.store k else none

/-- Modelled from the spec: the retry loop of §4.8 step 5 (the puller's
implementation file is not in the snapshot).  With the given number of
tries remaining and the given next attempt number, stream-download the
blob, compare the landed bytes' MD5 with the sidecar checksum, and stop at
the first match; the flag reports whether some attempt verified. -/
def pullTryDownload (env : PullEnv) (blobKeyArg want : Str) :
    Nat → Nat → Bool × List PullOp
  | 0, _ => (false, [])
  | Nat.succ rem, attempt =>
    match env.attemptChecksum attempt with
    | none =>
      let r := pullTryDownload env blobKeyArg want rem (attempt + 1)
      (r.1, .blobDownload blobKeyArg :: r.2)
    | some got =>
      if got = want then (true, [.blobDownload blobKeyArg])
      else
        let r := pullTryDownload env blobKeyArg want rem (attempt + 1)
        (r.1, .blobDownload blobKeyArg :: r.2)

/-- Modelled from the spec: the tail of a pull after the blob key is
resolved (§4.8 steps 3–7; the puller's implementation file is not in the
snapshot).  Derive the image reference `{app}:{gitTime}-{gitHash}` from
the blob key; if the container runtime already has it, skip both the
download and the import and return the reference; otherwise read the
sidecar, download the blob with up to three verified attempts, and hand
the stream to the runtime import. -/
def pullOfBlobKey (env : PullEnv) (blobKeyR : Str) (tPre : List PullOp) :
    Except Err Str × List PullOp :=
  match extractImageReferenceFromPath blobKeyR with
  | .error _ => (.error .extractFailed, tPre)
  | .ok ref =>
    match env.runtimeHas ref with
    | none => (.error .runtimeCheckFailed, tPre ++ [.runtimeHasCheck ref])
    | some true => (.ok ref, tPre ++ [.runtimeHasCheck ref])
    | some false =>
      let metadataKey := GenerateMetadataKey blobKeyR
      match pullDownload env metadataKey with
      | none =>
        (.error .downloadFailed,
         tPre ++ [.runtimeHasCheck ref, .s3Download metadataKey])
      | some mc =>
        match imageMetaFromContent mc with
        | none =>
          (.error .parseFailed,
           tPre ++ [.runtimeHasCheck ref, .s3Download metadataKey])
        | some metadata =>
          let dl := pullTryDownload env blobKeyR metadata.checksum 3 1
          let t1 := tPre ++ [.runtimeHasCheck ref, .s3Download metadataKey] ++ dl.2
          if dl.1 = false then (.error .downloadExhausted, t1)
          else if env.importOk then (.ok ref, t1 ++ [.runtimeImport ref])
          else (.error .importFailed, t1 ++ [.runtimeImport ref])

/-- Modelled from the spec: `ImagePuller.Pull` (§4.8; the puller's
implementation file is missing from the snapshot — only its interface,
its tests and an outdated copy remain).  Steps: fetch the environment
pointer; dereference one level of tag pointer; derive the image reference
from the blob key; if the runtime already has it, skip download and import
and return the reference; otherwise read the sidecar, download with three
verified attempts, and import.  The success result is the derived image
reference. -/
def pullSpecModel (env : PullEnv) (appName environment : Str) :
    Except Err Str × List PullOp :=
  let envKey := GeneratePointerKey appName environment
  match pullHead env envKey with
  | none => (.error .headFailed, [.s3Head envKey])
  | some false => (.error .pointerNotFound, [.s3Head envKey])
  | some true =>
    match pullDownload env envKey with
    | none => (.error .downloadFailed, [.s3Head envKey, .s3Download envKey])
    | some c =>
      match pointerFromContent c with
      | none => (.error .parseFailed, [.s3Head envKey, .s3Download envKey])
      | some pointer =>
        match pointer.targetType with
        | .image =>
          pullOfBlobKey env pointer.targetPath
            [.s3Head envKey, .s3Download envKey]
        | .tag =>
          match pullDownload env pointer.targetPath with
          | none =>
            (.error .downloadFailed,
             [.s3Head envKey, .s3Download envKey, .s3Download pointer.targetPath])
          | some tc =>
            match pointerFromContent tc with
            | none =>
              (.error .parseFailed,
               [.s3Head envKey, .s3Download envKey, .s3Download pointer.targetPath])
            | some tagPointer =>
              pullOfBlobKey env tagPointer.targetPath
                [.s3Head envKey, .s3Download envKey, .s3Download pointer.targetPath]

/-- Decidable equality for `Except`, used to evaluate the embedded
operations at concrete inputs. -/
instance instDecEqExcept {ε α : Type} [DecidableEq ε] [DecidableEq α] :
    DecidableEq (Except ε α) := fun a b =>
  match a, b with
  | .ok x, .ok y =>
    if h : x = y then isTrue (by rw [h])
    else isFalse (by intro hc; injection hc; contradiction)
  | .error x, .error y =>
    if h : x = y then isTrue (by rw [h])
    else isFalse (by intro hc; injection hc; contradiction)
  | .ok _, .error _ => isFalse (by intro hc; injection hc)
  | .error _, .ok _ => isFalse (by intro hc; injection hc)

/-! ### Generic list lemmas -/

theorem append_ne_nil_left (a b : Str) (h : a ≠ []) : a ++ b ≠ [] := by
  intro hc
  exact h (List.append_eq_nil.mp hc).1

theorem isPrefixOf_of_append_isPrefixOf (a b k : Str)
    (h : (a ++ b).isPrefixOf k = true) : a.isPrefixOf k = true := by
  rw [List.isPrefixOf_iff_prefix] at h ⊢
  exact (List.prefix_append a b).trans h

theorem append_drop_of_isPrefixOf (a k : Str) (h : a.isPrefixOf k = true) :
    a ++ k.drop a.length = k := by
  rw [List.isPrefixOf_iff_prefix] at h
  obtain ⟨t, rfl⟩ := h
  rw [List.drop_left]

/-! ### Key-shape lemmas -/

theorem gmk_images_chop (k : Str) (hlen : 11 ≤ k.length)
    (htake : k.take 7 = str "images/") :
    GenerateMetadataKey k = k.take (k.length - 7) ++ str ".json" := by
  rw [GenerateMetadataKey, if_pos ⟨hlen, htake⟩]

theorem gmk_other (k : Str) (h : ¬ (11 ≤ k.length ∧ k.take 7 = str "images/")) :
    GenerateMetadataKey k = k ++ str ".json" := by
  rw [GenerateMetadataKey, if_neg h]

theorem gmk_tarball (p : Str) (hlen : 11 ≤ (p ++ str ".tar.gz").length)
    (htake : (p ++ str ".tar.gz").take 7 = str "images/") :
    GenerateMetadataKey (p ++ str ".tar.gz") = p ++ str ".json" := by
  rw [gmk_images_chop _ hlen htake]
  have h7 : (str ".tar.gz").length = 7 := rfl
  have hl : (p ++ str ".tar.gz").length - 7 = p.length := by
    rw [List.length_append, h7]
    omega
  rw [hl, List.take_left]

/-- The blob key re-associated to expose its `images/` head. -/
theorem blobKey_assoc (app ym gitTime gitHash : Str) :
    blobKey app ym gitTime gitHash =
      str "images/" ++ (app ++ (str "/" ++ (ym ++ (str "/" ++ (app ++
        (str "-" ++ (gitTime ++ (str "-" ++ (gitHash ++ str ".tar.gz"))))))))) := by
  simp [blobKey, List.append_assoc]

theorem blobKey_take7 (app ym gitTime gitHash : Str) :
    (blobKey app ym gitTime gitHash).take 7 = str "images/" := by
  have h7 : (str "images/").length = 7 := rfl
  rw [blobKey_assoc, ← h7, List.take_left]

theorem blobKey_length (app ym gitTime gitHash : Str) :
    11 ≤ (blobKey app ym gitTime gitHash).length := by
  have l1 : (str "images/").length = 7 := rfl
  have l2 : (str "/").length = 1 := rfl
  have l3 : (str "-").length = 1 := rfl
  have l4 : (str ".tar.gz").length = 7 := rfl
  rw [blobKey_assoc]
  simp only [List.length_append, l1, l2, l3, l4]
  omega

/-- The sidecar key of a blob key: same stem, `.json` extension. -/
theorem GenerateMetadataKey_blobKey (app ym gitTime gitHash : Str) :
    GenerateMetadataKey (blobKey app ym gitTime gitHash) =
      str "images/" ++ app ++ str "/" ++ ym ++ str "/" ++ app ++ str "-" ++
        gitTime ++ str "-" ++ gitHash ++ str ".json" := by
  have := gmk_tarball
    (str "images/" ++ app ++ str "/" ++ ym ++ str "/" ++ app ++ str "-" ++
      gitTime ++ str "-" ++ gitHash)
    (by
      have h := blobKey_length app ym gitTime gitHash
      simpa [blobKey] using h)
    (by
      have h := blobKey_take7 app ym gitTime gitHash
      simpa [blobKey] using h)
  simpa [blobKey] using this

/-- The trace of an audit write does not depend on whether it succeeds. -/
theorem logEvent_trace (env : S3Env) (e : AuditEvent) :
    (logEvent env e).2 =
      [S3Op.upload (GenerateAuditKey e.appName e.timestamp e.eventType e.gitHash)
        (Content.auditC e)] := by
  rw [logEvent]
  split <;> rfl

theorem images_ne_audit (x y : Str) :
    str "images/" ++ x ≠ str "audit/" ++ y := by
  intro h
  have e1 : str "images/" ++ x = 'i' :: (str "mages/" ++ x) := rfl
  have e2 : str "audit/" ++ y = 'a' :: (str "udit/" ++ y) := rfl
  rw [e1, e2] at h
  injection h with hh _
  exact absurd hh (by decide)

theorem blobKey_ne_auditKey (app ym gitTime gitHash a2 h2 : Str)
    (ts : TimeStamp) (et : EventType) :
    blobKey app ym gitTime gitHash ≠ GenerateAuditKey a2 ts et h2 := by
  rw [blobKey_assoc]
  exact images_ne_audit _ _

theorem metadataKey_ne_auditKey (app ym gitTime gitHash a2 h2 : Str)
    (ts : TimeStamp) (et : EventType) :
    GenerateMetadataKey (blobKey app ym gitTime gitHash) ≠
      GenerateAuditKey a2 ts et h2 := by
  rw [GenerateMetadataKey_blobKey]
  have hassoc : str "images/" ++ app ++ str "/" ++ ym ++ str "/" ++ app ++
      str "-" ++ gitTime ++ str "-" ++ gitHash ++ str ".json" =
      str "images/" ++ (app ++ (str "/" ++ (ym ++ (str "/" ++ (app ++
        (str "-" ++ (gitTime ++ (str "-" ++ (gitHash ++ str ".json"))))))))) := by
    simp [List.append_assoc]
  rw [hassoc]
  exact images_ne_audit _ _

/-! ### C10: sidecar key generation -/

/-- C10.  `GenerateMetadataKey` rewrites a key to its sidecar key by
removing the final seven characters (`.tar.gz`) and appending `.json`
exactly when the key starts with `images/` and has length at least 11;
every other key — an archive blob key, for example — gets `.json` appended
to the whole key, `.tar.gz` suffix included. -/
theorem C10_generateMetadataKey_characterisation (k : Str) :
    (∀ p : Str, k = p ++ str ".tar.gz" → 11 ≤ k.length →
       k.take 7 = str "images/" → GenerateMetadataKey k = p ++ str ".json") ∧
    (11 ≤ k.length → k.take 7 = str "images/" →
       GenerateMetadataKey k = k.take (k.length - 7) ++ str ".json") ∧
    (¬ (11 ≤ k.length ∧ k.take 7 = str "images/") →
       GenerateMetadataKey k = k ++ str ".json") := by
  refine ⟨?_, gmk_images_chop k, gmk_other k⟩
  rintro p rfl hlen hpfx
  exact gmk_tarball p hlen hpfx

/-- Witness for C10 at a canonical blob key and at an archive key. -/
theorem C10_witness :
    GenerateMetadataKey (str "images/myapp/202507/myapp-20250721-2118-f7a5a27.tar.gz") =
      str "images/myapp/202507/myapp-20250721-2118-f7a5a27" ++ str ".json" ∧
    GenerateMetadataKey
        (str "archive/myapp/202507/myapp-20250721-2118-f7a5a27-archived-on-20250722-1018.tar.gz") =
      str "archive/myapp/202507/myapp-20250721-2118-f7a5a27-archived-on-20250722-1018.tar.gz" ++
        str ".json" := by
  constructor
  · exact (C10_generateMetadataKey_characterisation _).1
      (str "images/myapp/202507/myapp-20250721-2118-f7a5a27") (by decide)
      (by decide) (by decide)
  · exact (C10_generateMetadataKey_characterisation _).2.2 (by decide)

/-! ### C8: listing under a virtual-hosted endpoint -/

/-- C8.  When the endpoint embeds the bucket as a hostname label before
`.s3.`, `List` queries with `{bucket}/` prepended to the requested prefix
and strips that same `{bucket}/` from every returned key, so the caller
receives exactly the stored keys under `{bucket}/{prefix}` with the bucket
fragment removed; when the endpoint does not embed the bucket, the keys
are returned unmodified. -/
theorem C8_list_strips_bucket :
    (∀ endpoint base bucket storeKeys pfx,
       extractBaseEndpoint endpoint = (base, bucket) → base ≠ [] → bucket ≠ [] →
       listKeys (computeKeyPfx endpoint) storeKeys pfx =
         (storeKeys.filter
             (fun k => ((bucket ++ str "/") ++ pfx).isPrefixOf k)).map
           (fun k => k.drop (bucket.length + 1)) ∧
       ∀ r ∈ listKeys (computeKeyPfx endpoint) storeKeys pfx,
         (bucket ++ str "/") ++ r ∈ storeKeys ∧ pfx.isPrefixOf r = true) ∧
    (∀ endpoint storeKeys pfx,
       extractBaseEndpoint endpoint = ([], []) →
       listKeys (computeKeyPfx endpoint) storeKeys pfx =
         storeKeys.filter (fun k => pfx.isPrefixOf k)) := by
  constructor
  · intro endpoint base bucket storeKeys pfx hbe hbase hbucket
    have hkp : computeKeyPfx endpoint = bucket ++ str "/" := by
      rw [computeKeyPfx, hbe, if_pos ⟨hbase, hbucket⟩]
    have hlen : (bucket ++ str "/").length = bucket.length + 1 := by
      rw [List.length_append]; rfl
    have hmain : listKeys (computeKeyPfx endpoint) storeKeys pfx =
        (storeKeys.filter
            (fun k => ((bucket ++ str "/") ++ pfx).isPrefixOf k)).map
          (fun k => k.drop (bucket.length + 1)) := by
      rw [listKeys, hkp]
      refine List.map_congr_left ?_
      intro k hk
      rw [List.mem_filter] at hk
      have hpk : (bucket ++ str "/").isPrefixOf k = true :=
        isPrefixOf_of_append_isPrefixOf _ _ _ hk.2
      rw [if_pos ⟨append_ne_nil_left bucket (str "/") hbucket, hpk⟩, hlen]
    refine ⟨hmain, ?_⟩
    intro r hr
    rw [hmain] at hr
    rw [List.mem_map] at hr
    obtain ⟨k, hk, rfl⟩ := hr
    rw [List.mem_filter] at hk
    have hpk : (bucket ++ str "/").isPrefixOf k = true :=
      isPrefixOf_of_append_isPrefixOf _ _ _ hk.2
    have hdec : (bucket ++ str "/") ++ k.drop (bucket.length + 1) = k := by
      have := append_drop_of_isPrefixOf (bucket ++ str "/") k hpk
      rwa [hlen] at this
    obtain ⟨hk1, hk2⟩ := hk
    constructor
    · rw [hdec]; exact hk1
    · rw [List.isPrefixOf_iff_prefix] at hk2
      obtain ⟨t, ht⟩ := hk2
      have hkeq : k = (bucket ++ str "/") ++ (pfx ++ t) := by
        rw [← ht, List.append_assoc]
      have hdrop : k.drop (bucket.length + 1) = pfx ++ t := by
        rw [hkeq, ← hlen, List.drop_left]
      rw [List.isPrefixOf_iff_prefix, hdrop]
      exact List.prefix_append pfx t
  · intro endpoint storeKeys pfx hbe
    have hkp : computeKeyPfx endpoint = [] := by
      rw [computeKeyPfx, hbe]
      simp
    rw [listKeys, hkp]
    simp

/-- Witness for C8: the spec's S6 scenario endpoint, with one matching and
one non-matching stored key, and a path-style endpoint left unmodified. -/
theorem C8_witness :
    listKeys (computeKeyPfx (str "https://mybucket.s3.us-east-1.example.com"))
        [str "mybucket/images/myapp/202507/a.tar.gz", str "otherbucket/images/x"]
        (str "images/myapp/") =
      [str "images/myapp/202507/a.tar.gz"] ∧
    listKeys (computeKeyPfx (str "https://s3.us-east-1.example.com"))
        [str "images/myapp/202507/a.tar.gz"] (str "images/myapp/") =
      [str "images/myapp/202507/a.tar.gz"] := by
  constructor
  · exact ((C8_list_strips_bucket.1
      (str "https://mybucket.s3.us-east-1.example.com")
      (str "https://s3.us-east-1.example.com") (str "mybucket")
      [str "mybucket/images/myapp/202507/a.tar.gz", str "otherbucket/images/x"]
      (str "images/myapp/") (by decide) (by decide) (by decide)).1).trans (by decide)
  · exact (C8_list_strips_bucket.2 (str "https://s3.us-east-1.example.com")
      [str "images/myapp/202507/a.tar.gz"] (str "images/myapp/")
      (by decide)).trans (by decide)

/-! ### C2: push skip when the existing sidecar checksum matches -/

/-- C2.  When the sidecar probe finds an existing sidecar whose checksum
equals the newly computed one, `Push` issues exactly the probe, the
sidecar download and one push audit write with `was_skipped = true` and
`was_archived = false` — in particular it uploads neither the blob nor
the sidecar — and returns success with `Skipped = true`,
`Archived = false`. -/
theorem C2_push_skip_audit_only
    (env : S3Env) (now : TimeStamp)
    (user archiveTs gitHash gitTime newChecksum : Str)
    (newSize : Int) (imageRef : Str) (em : ImageMetadata) (s3Key mk : Str)
    (hs : s3Key = blobKey (extractAppName imageRef) now.ym gitTime gitHash)
    (hm : mk = GenerateMetadataKey s3Key)
    (hHead : env.headOk mk = true)
    (hDl : env.downloadOk mk = true)
    (hStore : env.store mk = some (Content.imageMetaC em))
    (hCk : em.checksum = newChecksum) :
    push env now user archiveTs true gitHash gitTime true true newChecksum
        newSize imageRef =
      (Except.ok { imageRef := imageRef, s3Key := s3Key, checksum := newChecksum,
                   size := newSize, skipped := true, archived := false },
       [S3Op.head mk, S3Op.download mk,
        S3Op.upload (GenerateAuditKey (extractAppName imageRef) now EventType.pushE gitHash)
          (Content.auditC (CreatePushEvent (extractAppName imageRef) gitHash gitTime
             imageRef s3Key newChecksum newSize true false user now))]) ∧
    (∀ c, S3Op.upload s3Key c ∉
      (push env now user archiveTs true gitHash gitTime true true newChecksum
        newSize imageRef).2) ∧
    (∀ c, S3Op.upload mk c ∉
      (push env now user archiveTs true gitHash gitTime true true newChecksum
        newSize imageRef).2) := by
  subst hs hm hCk
  have hmain : push env now user archiveTs true gitHash gitTime true true
      em.checksum newSize imageRef =
      (Except.ok { imageRef := imageRef,
                   s3Key := blobKey (extractAppName imageRef) now.ym gitTime gitHash,
                   checksum := em.checksum, size := newSize,
                   skipped := true, archived := false },
       [S3Op.head (GenerateMetadataKey (blobKey (extractAppName imageRef) now.ym gitTime gitHash)),
        S3Op.download (GenerateMetadataKey (blobKey (extractAppName imageRef) now.ym gitTime gitHash)),
        S3Op.upload (GenerateAuditKey (extractAppName imageRef) now EventType.pushE gitHash)
          (Content.auditC (CreatePushEvent (extractAppName imageRef) gitHash gitTime
             imageRef (blobKey (extractAppName imageRef) now.ym gitTime gitHash)
             em.checksum newSize true false user now))]) := by
    simp [push, s3head, s3download, hHead, hDl, hStore, imageMetaFromContent,
      logEvent_trace, CreatePushEvent]
  have hne1 := blobKey_ne_auditKey (extractAppName imageRef) now.ym gitTime gitHash
    (extractAppName imageRef) gitHash now EventType.pushE
  have hne2 := metadataKey_ne_auditKey (extractAppName imageRef) now.ym gitTime gitHash
    (extractAppName imageRef) gitHash now EventType.pushE
  refine ⟨hmain, ?_, ?_⟩
  · intro c
    rw [hmain]
    simp [hne1]
  · intro c
    rw [hmain]
    simp [hne2]

/-- Witness for C2: a concrete skip push against a store holding a
matching sidecar. -/
theorem C2_witness :
    (push
      { store := fun k =>
          if k = GenerateMetadataKey (blobKey
              (extractAppName (str "myapp:20250721-2118-f7a5a27"))
              (str "202507") (str "20250721-2118") (str "f7a5a27")) then
            some (Content.imageMetaC
              { checksum := str "aa", size := 10,
                createdAt := ⟨str "202507", str "20250721-2130"⟩,
                gitHash := str "f7a5a27", gitTime := str "20250721-2118",
                imageTag := str "myapp:20250721-2118-f7a5a27",
                appName := str "myapp" })
          else none,
        headOk := fun _ => true, downloadOk := fun _ => true,
        uploadOk := fun _ => true, copyOk := fun _ _ => true,
        deleteOk := fun _ => true }
      ⟨str "202507", str "20250722-0900"⟩ (str "bob") (str "20250722-0900")
      true (str "f7a5a27") (str "20250721-2118") true true (str "aa") 10
      (str "myapp:20250721-2118-f7a5a27")).1 =
    Except.ok { imageRef := str "myapp:20250721-2118-f7a5a27",
                s3Key := str "images/myapp/202507/myapp-20250721-2118-f7a5a27.tar.gz",
                checksum := str "aa", size := 10,
                skipped := true, archived := false } := by
  have h := (C2_push_skip_audit_only
    { store := fun k =>
        if k = GenerateMetadataKey (blobKey
            (extractAppName (str "myapp:20250721-2118-f7a5a27"))
            (str "202507") (str "20250721-2118") (str "f7a5a27")) then
          some (Content.imageMetaC
            { checksum := str "aa", size := 10,
              createdAt := ⟨str "202507", str "20250721-2130"⟩,
              gitHash := str "f7a5a27", gitTime := str "20250721-2118",
              imageTag := str "myapp:20250721-2118-f7a5a27",
              appName := str "myapp" })
        else none,
      headOk := fun _ => true, downloadOk := fun _ => true,
      uploadOk := fun _ => true, copyOk := fun _ _ => true,
      deleteOk := fun _ => true }
    ⟨str "202507", str "20250722-0900"⟩ (str "bob") (str "20250722-0900")
    (str "f7a5a27") (str "20250721-2118") (str "aa") 10
    (str "myapp:20250721-2118-f7a5a27")
    { checksum := str "aa", size := 10,
      createdAt := ⟨str "202507", str "20250721-2130"⟩,
      gitHash := str "f7a5a27", gitTime := str "20250721-2118",
      imageTag := str "myapp:20250721-2118-f7a5a27",
      appName := str "myapp" }
    (blobKey (extractAppName (str "myapp:20250721-2118-f7a5a27"))
      (str "202507") (str "20250721-2118") (str "f7a5a27"))
    (GenerateMetadataKey (blobKey
      (extractAppName (str "myapp:20250721-2118-f7a5a27"))
      (str "202507") (str "20250721-2118") (str "f7a5a27")))
    rfl rfl rfl rfl (by decide) rfl).1
  rw [h]
  decide

/-! ### C3: push with content conflict archives then replaces -/

theorem archive_ops_no_upload (env : S3Env) (ts a b : Str) :
    ∀ k c, S3Op.upload k c ∉ (archiveExistingFiles env ts a b).2 := by
  intro k c
  simp only [archiveExistingFiles]
  split_ifs <;> simp

theorem archive_err (env : S3Env) (ts a b : Str)
    (h : env.copyOk a (GenerateArchiveKeys a ts).1 = false ∨
         env.copyOk b (GenerateArchiveKeys a ts).2 = false ∨
         env.deleteOk a = false ∨ env.deleteOk b = false) :
    (archiveExistingFiles env ts a b).1.isOk = false := by
  simp only [archiveExistingFiles]
  split_ifs with h1 h2 h3 h4 <;> simp_all [Except.isOk, Except.toBool]

theorem archive_all_ok (env : S3Env) (ts a b : Str)
    (h1 : env.copyOk a (GenerateArchiveKeys a ts).1 = true)
    (h2 : env.copyOk b (GenerateArchiveKeys a ts).2 = true)
    (h3 : env.deleteOk a = true) (h4 : env.deleteOk b = true) :
    archiveExistingFiles env ts a b =
      (Except.ok (),
       [S3Op.copy a (GenerateArchiveKeys a ts).1,
        S3Op.copy b (GenerateArchiveKeys a ts).2,
        S3Op.delete a, S3Op.delete b]) := by
  simp [archiveExistingFiles, h1, h2, h3, h4]

/-- C3.  When the existing sidecar's checksum differs from the new one,
`Push` issues, in order: copy blob to its archive key, copy sidecar to its
archive key, delete the blob, delete the sidecar, upload the new blob,
upload the new sidecar, then the push audit write with
`was_skipped = false`, `was_archived = true`; and if any archive copy or
delete fails, the push returns an error with no upload whatsoever in its
trace. -/
theorem C3_push_archive_then_replace
    (env : S3Env) (now : TimeStamp)
    (user archiveTs gitHash gitTime newChecksum : Str)
    (newSize : Int) (imageRef : Str) (em : ImageMetadata)
    (s3Key mk aImg aMeta : Str)
    (hs : s3Key = blobKey (extractAppName imageRef) now.ym gitTime gitHash)
    (hm : mk = GenerateMetadataKey s3Key)
    (haI : aImg = (GenerateArchiveKeys s3Key archiveTs).1)
    (haM : aMeta = (GenerateArchiveKeys s3Key archiveTs).2)
    (hHead : env.headOk mk = true)
    (hDl : env.downloadOk mk = true)
    (hStore : env.store mk = some (Content.imageMetaC em))
    (hCk : ¬ em.checksum = newChecksum) :
    ((env.copyOk s3Key aImg = true) → (env.copyOk mk aMeta = true) →
     (env.deleteOk s3Key = true) → (env.deleteOk mk = true) →
     (env.uploadOk s3Key = true) → (env.uploadOk mk = true) →
     push env now user archiveTs true gitHash gitTime true true newChecksum
         newSize imageRef =
       (Except.ok { imageRef := imageRef, s3Key := s3Key, checksum := newChecksum,
                    size := newSize, skipped := false, archived := true },
        [S3Op.head mk, S3Op.download mk,
         S3Op.copy s3Key aImg, S3Op.copy mk aMeta,
         S3Op.delete s3Key, S3Op.delete mk,
         S3Op.upload s3Key (Content.blobC newChecksum),
         S3Op.upload mk (Content.imageMetaC
           { checksum := newChecksum, size := newSize, createdAt := now,
             gitHash := gitHash, gitTime := gitTime, imageTag := imageRef,
             appName := extractAppName imageRef }),
         S3Op.upload (GenerateAuditKey (extractAppName imageRef) now EventType.pushE gitHash)
           (Content.auditC (CreatePushEvent (extractAppName imageRef) gitHash gitTime
              imageRef s3Key newChecksum newSize false true user now))])) ∧
    ((env.copyOk s3Key aImg = false ∨ env.copyOk mk aMeta = false ∨
      env.deleteOk s3Key = false ∨ env.deleteOk mk = false) →
     (push env now user archiveTs true gitHash gitTime true true newChecksum
        newSize imageRef).1.isOk = false ∧
     ∀ k c, S3Op.upload k c ∉
       (push env now user archiveTs true gitHash gitTime true true newChecksum
         newSize imageRef).2) := by
  subst hs hm haI haM
  constructor
  · intro hc1 hc2 hd1 hd2 hu1 hu2
    simp [push, s3head, s3download, hHead, hDl, hStore, imageMetaFromContent, hCk,
      archive_all_ok env archiveTs _ _ hc1 hc2 hd1 hd2,
      pushUploadPhase, hu1, hu2, logEvent_trace, CreatePushEvent]
  · intro hFail
    have hred : push env now user archiveTs true gitHash gitTime true true newChecksum
        newSize imageRef =
        (match archiveExistingFiles env archiveTs
            (blobKey (extractAppName imageRef) now.ym gitTime gitHash)
            (GenerateMetadataKey (blobKey (extractAppName imageRef) now.ym gitTime gitHash)) with
         | (.error e, tA) =>
           (.error e,
            [S3Op.head (GenerateMetadataKey (blobKey (extractAppName imageRef) now.ym gitTime gitHash)),
             S3Op.download (GenerateMetadataKey (blobKey (extractAppName imageRef) now.ym gitTime gitHash))] ++ tA)
         | (.ok _, tA) =>
           pushUploadPhase env now user (extractAppName imageRef) gitHash gitTime imageRef
             (blobKey (extractAppName imageRef) now.ym gitTime gitHash)
             (GenerateMetadataKey (blobKey (extractAppName imageRef) now.ym gitTime gitHash))
             { checksum := newChecksum, size := newSize, createdAt := now,
               gitHash := gitHash, gitTime := gitTime, imageTag := imageRef,
               appName := extractAppName imageRef } true
             ([S3Op.head (GenerateMetadataKey (blobKey (extractAppName imageRef) now.ym gitTime gitHash)),
               S3Op.download (GenerateMetadataKey (blobKey (extractAppName imageRef) now.ym gitTime gitHash))] ++ tA)) := by
      simp [push, s3head, s3download, hHead, hDl, hStore, imageMetaFromContent, hCk]
    rcases harch : archiveExistingFiles env archiveTs
        (blobKey (extractAppName imageRef) now.ym gitTime gitHash)
        (GenerateMetadataKey (blobKey (extractAppName imageRef) now.ym gitTime gitHash)) with ⟨r, tA⟩
    cases r with
    | ok v =>
      have := archive_err env archiveTs
        (blobKey (extractAppName imageRef) now.ym gitTime gitHash)
        (GenerateMetadataKey (blobKey (extractAppName imageRef) now.ym gitTime gitHash)) hFail
      rw [harch] at this
      simp [Except.isOk, Except.toBool] at this
    | error e =>
      rw [hred, harch]
      constructor
      · simp [Except.isOk, Except.toBool]
      · intro k c
        have hna := archive_ops_no_upload env archiveTs
          (blobKey (extractAppName imageRef) now.ym gitTime gitHash)
          (GenerateMetadataKey (blobKey (extractAppName imageRef) now.ym gitTime gitHash)) k c
        rw [harch] at hna
        simp_all

/-- Witness for C3: a concrete conflicting push (stored checksum `bb`,
new checksum `aa`) succeeds with `archived = true` when every archive step
works, and fails when the archive copies fail. -/
theorem C3_witness :
    (push
      { store := fun k =>
          if k = GenerateMetadataKey (blobKey
              (extractAppName (str "myapp:20250721-2118-f7a5a27"))
              (str "202507") (str "20250721-2118") (str "f7a5a27")) then
            some (Content.imageMetaC
              { checksum := str "bb", size := 9,
                createdAt := ⟨str "202507", str "20250721-2130"⟩,
                gitHash := str "f7a5a27", gitTime := str "20250721-2118",
                imageTag := str "myapp:20250721-2118-f7a5a27",
                appName := str "myapp" })
          else none,
        headOk := fun _ => true, downloadOk := fun _ => true,
        uploadOk := fun _ => true, copyOk := fun _ _ => true,
        deleteOk := fun _ => true }
      ⟨str "202507", str "20250722-0900"⟩ (str "bob") (str "20250722-0900")
      true (str "f7a5a27") (str "20250721-2118") true true (str "aa") 10
      (str "myapp:20250721-2118-f7a5a27")).1 =
    Except.ok { imageRef := str "myapp:20250721-2118-f7a5a27",
                s3Key := str "images/myapp/202507/myapp-20250721-2118-f7a5a27.tar.gz",
                checksum := str "aa", size := 10,
                skipped := false, archived := true } ∧
    (push
      { store := fun k =>
          if k = GenerateMetadataKey (blobKey
              (extractAppName (str "myapp:20250721-2118-f7a5a27"))
              (str "202507") (str "20250721-2118") (str "f7a5a27")) then
            some (Content.imageMetaC
              { checksum := str "bb", size := 9,
                createdAt := ⟨str "202507", str "20250721-2130"⟩,
                gitHash := str "f7a5a27", gitTime := str "20250721-2118",
                imageTag := str "myapp:20250721-2118-f7a5a27",
                appName := str "myapp" })
          else none,
        headOk := fun _ => true, downloadOk := fun _ => true,
        uploadOk := fun _ => true, copyOk := fun _ _ => false,
        deleteOk := fun _ => true }
      ⟨str "202507", str "20250722-0900"⟩ (str "bob") (str "20250722-0900")
      true (str "f7a5a27") (str "20250721-2118") true true (str "aa") 10
      (str "myapp:20250721-2118-f7a5a27")).1.isOk = false := by
  constructor
  · have h := (C3_push_archive_then_replace
      { store := fun k =>
          if k = GenerateMetadataKey (blobKey
              (extractAppName (str "myapp:20250721-2118-f7a5a27"))
              (str "202507") (str "20250721-2118") (str "f7a5a27")) then
            some (Content.imageMetaC
              { checksum := str "bb", size := 9,
                createdAt := ⟨str "202507", str "20250721-2130"⟩,
                gitHash := str "f7a5a27", gitTime := str "20250721-2118",
                imageTag := str "myapp:20250721-2118-f7a5a27",
                appName := str "myapp" })
          else none,
        headOk := fun _ => true, downloadOk := fun _ => true,
        uploadOk := fun _ => true, copyOk := fun _ _ => true,
        deleteOk := fun _ => true }
      ⟨str "202507", str "20250722-0900"⟩ (str "bob") (str "20250722-0900")
      (str "f7a5a27") (str "20250721-2118") (str "aa") 10
      (str "myapp:20250721-2118-f7a5a27")
      { checksum := str "bb", size := 9,
        createdAt := ⟨str "202507", str "20250721-2130"⟩,
        gitHash := str "f7a5a27", gitTime := str "20250721-2118",
        imageTag := str "myapp:20250721-2118-f7a5a27",
        appName := str "myapp" }
      (blobKey (extractAppName (str "myapp:20250721-2118-f7a5a27"))
        (str "202507") (str "20250721-2118") (str "f7a5a27"))
      (GenerateMetadataKey (blobKey
        (extractAppName (str "myapp:20250721-2118-f7a5a27"))
        (str "202507") (str "20250721-2118") (str "f7a5a27")))
      ((GenerateArchiveKeys (blobKey
          (extractAppName (str "myapp:20250721-2118-f7a5a27"))
          (str "202507") (str "20250721-2118") (str "f7a5a27"))
          (str "20250722-0900")).1)
      ((GenerateArchiveKeys (blobKey
          (extractAppName (str "myapp:20250721-2118-f7a5a27"))
          (str "202507") (str "20250721-2118") (str "f7a5a27"))
          (str "20250722-0900")).2)
      rfl rfl rfl rfl rfl rfl (by decide) (by decide)).1
      rfl rfl rfl rfl rfl rfl
    rw [h]
    decide
  · exact ((C3_push_archive_then_replace
      { store := fun k =>
          if k = GenerateMetadataKey (blobKey
              (extractAppName (str "myapp:20250721-2118-f7a5a27"))
              (str "202507") (str "20250721-2118") (str "f7a5a27")) then
            some (Content.imageMetaC
              { checksum := str "bb", size := 9,
                createdAt := ⟨str "202507", str "20250721-2130"⟩,
                gitHash := str "f7a5a27", gitTime := str "20250721-2118",
                imageTag := str "myapp:20250721-2118-f7a5a27",
                appName := str "myapp" })
          else none,
        headOk := fun _ => true, downloadOk := fun _ => true,
        uploadOk := fun _ => true, copyOk := fun _ _ => false,
        deleteOk := fun _ => true }
      ⟨str "202507", str "20250722-0900"⟩ (str "bob") (str "20250722-0900")
      (str "f7a5a27") (str "20250721-2118") (str "aa") 10
      (str "myapp:20250721-2118-f7a5a27")
      { checksum := str "bb", size := 9,
        createdAt := ⟨str "202507", str "20250721-2130"⟩,
        gitHash := str "f7a5a27", gitTime := str "20250721-2118",
        imageTag := str "myapp:20250721-2118-f7a5a27",
        appName := str "myapp" }
      (blobKey (extractAppName (str "myapp:20250721-2118-f7a5a27"))
        (str "202507") (str "20250721-2118") (str "f7a5a27"))
      (GenerateMetadataKey (blobKey
        (extractAppName (str "myapp:20250721-2118-f7a5a27"))
        (str "202507") (str "20250721-2118") (str "f7a5a27")))
      ((GenerateArchiveKeys (blobKey
          (extractAppName (str "myapp:20250721-2118-f7a5a27"))
          (str "202507") (str "20250721-2118") (str "f7a5a27"))
          (str "20250722-0900")).1)
      ((GenerateArchiveKeys (blobKey
          (extractAppName (str "myapp:20250721-2118-f7a5a27"))
          (str "202507") (str "20250721-2118") (str "f7a5a27"))
          (str "20250722-0900")).2)
      rfl rfl rfl rfl rfl rfl (by decide) (by decide)).2 (Or.inl rfl)).1

/-! ### C1: idempotent promotion skip -/

/-- C1.  For both `Promote` and `PromoteFromTag`, when an environment
pointer already exists at `pointers/{app}/{env}.json` and its
`target_path` equals the target path of the newly constructed pointer, the
operation returns success after only the existence probes and the pointer
download: it writes neither the environment pointer nor any audit
record. -/
theorem C1_promotion_idempotent_skip :
    (∀ (env : S3Env) (now : TimeStamp) (user source environment : Str)
       (appName gitTime gitHash imgPath envKey : Str) (ex : PointerMetadata),
       containsChar ':' source = true →
       parseImageReference source = .ok (appName, gitTime, gitHash) →
       imgPath = blobKey appName now.ym gitTime gitHash →
       envKey = GeneratePointerKey appName environment →
       env.headOk imgPath = true →
       (env.store imgPath).isSome = true →
       env.headOk envKey = true →
       env.downloadOk envKey = true →
       env.store envKey = some (Content.pointerC ex) →
       ex.targetPath = imgPath →
       promote env now user source environment =
         (Except.ok (), [S3Op.head imgPath, S3Op.head envKey, S3Op.download envKey]) ∧
       ∀ k c, S3Op.upload k c ∉ (promote env now user source environment).2) ∧
    (∀ (env : S3Env) (now : TimeStamp) (user appName version environment : Str)
       (tagKey envKey : Str) (tp ex : PointerMetadata),
       tagKey = GenerateTagKey appName version →
       envKey = GeneratePointerKey appName environment →
       env.headOk tagKey = true →
       env.downloadOk tagKey = true →
       env.store tagKey = some (Content.pointerC tp) →
       env.headOk envKey = true →
       env.downloadOk envKey = true →
       env.store envKey = some (Content.pointerC ex) →
       ex.targetPath = tagKey →
       promoteFromTag env now user appName version environment =
         (Except.ok (),
          [S3Op.head tagKey, S3Op.download tagKey, S3Op.head envKey, S3Op.download envKey]) ∧
       ∀ k c, S3Op.upload k c ∉ (promoteFromTag env now user appName version environment).2) := by
  constructor
  · intro env now user source environment appName gitTime gitHash imgPath envKey ex
      hcolon hparse himg he hHeadI hPresent hHeadE hDlE hStoreE hTgt
    subst himg he
    have hmain : promote env now user source environment =
        (Except.ok (), [S3Op.head (blobKey appName now.ym gitTime gitHash),
          S3Op.head (GeneratePointerKey appName environment),
          S3Op.download (GeneratePointerKey appName environment)]) := by
      simp [promote, hcolon, hparse, s3head, s3download, hHeadI, hPresent,
        hHeadE, hDlE, hStoreE, promoteTail, pointerFromContent,
        CreateImagePointer, hTgt]
    refine ⟨hmain, ?_⟩
    intro k c
    rw [hmain]
    simp
  · intro env now user appName version environment tagKey envKey tp ex
      ht he hHeadT hDlT hStoreT hHeadE hDlE hStoreE hTgt
    subst ht he
    have hmain : promoteFromTag env now user appName version environment =
        (Except.ok (), [S3Op.head (GenerateTagKey appName version),
          S3Op.download (GenerateTagKey appName version),
          S3Op.head (GeneratePointerKey appName environment),
          S3Op.download (GeneratePointerKey appName environment)]) := by
      simp [promoteFromTag, s3head, s3download, hHeadT, hDlT, hStoreT,
        hHeadE, hDlE, hStoreE, promoteTail, pointerFromContent,
        CreateTagPointer, hTgt]
    refine ⟨hmain, ?_⟩
    intro k c
    rw [hmain]
    simp

/-- Witness for C1: a repeat direct promotion and a repeat tag promotion
against stores whose environment pointer already has the same target. -/
theorem C1_witness :
    (promote
      { store := fun k =>
          if k = blobKey (str "myapp") (str "202507") (str "20250721-2118") (str "f7a5a27") then
            some (Content.blobC (str "aa"))
          else if k = GeneratePointerKey (str "myapp") (str "staging") then
            some (Content.pointerC
              { targetType := .image,
                targetPath := blobKey (str "myapp") (str "202507") (str "20250721-2118") (str "f7a5a27"),
                promotedAt := ⟨str "202507", str "20250721-2130"⟩,
                promotedBy := str "bob", gitHash := str "f7a5a27",
                gitTime := str "20250721-2118",
                sourceImage := str "myapp:20250721-2118-f7a5a27", sourceTag := [] })
          else none,
        headOk := fun _ => true, downloadOk := fun _ => true,
        uploadOk := fun _ => true, copyOk := fun _ _ => true,
        deleteOk := fun _ => true }
      ⟨str "202507", str "20250722-0900"⟩ (str "bob")
      (str "myapp:20250721-2118-f7a5a27") (str "staging")).1 = Except.ok () ∧
    (promoteFromTag
      { store := fun k =>
          if k = GenerateTagKey (str "myapp") (str "v1.2.0") then
            some (Content.pointerC
              { targetType := .image,
                targetPath := blobKey (str "myapp") (str "202507") (str "20250721-2118") (str "f7a5a27"),
                promotedAt := ⟨str "202507", str "20250721-2130"⟩,
                promotedBy := str "bob", gitHash := str "f7a5a27",
                gitTime := str "20250721-2118",
                sourceImage := str "myapp:20250721-2118-f7a5a27", sourceTag := [] })
          else if k = GeneratePointerKey (str "myapp") (str "production") then
            some (Content.pointerC
              { targetType := .tag,
                targetPath := GenerateTagKey (str "myapp") (str "v1.2.0"),
                promotedAt := ⟨str "202507", str "20250721-2140"⟩,
                promotedBy := str "bob", gitHash := str "f7a5a27",
                gitTime := str "20250721-2118",
                sourceImage := str "myapp:20250721-2118-f7a5a27",
                sourceTag := str "v1.2.0" })
          else none,
        headOk := fun _ => true, downloadOk := fun _ => true,
        uploadOk := fun _ => true, copyOk := fun _ _ => true,
        deleteOk := fun _ => true }
      ⟨str "202507", str "20250722-0900"⟩ (str "bob")
      (str "myapp") (str "v1.2.0") (str "production")).1 = Except.ok () := by
  constructor
  · have h := (C1_promotion_idempotent_skip.1
      { store := fun k =>
          if k = blobKey (str "myapp") (str "202507") (str "20250721-2118") (str "f7a5a27") then
            some (Content.blobC (str "aa"))
          else if k = GeneratePointerKey (str "myapp") (str "staging") then
            some (Content.pointerC
              { targetType := .image,
                targetPath := blobKey (str "myapp") (str "202507") (str "20250721-2118") (str "f7a5a27"),
                promotedAt := ⟨str "202507", str "20250721-2130"⟩,
                promotedBy := str "bob", gitHash := str "f7a5a27",
                gitTime := str "20250721-2118",
                sourceImage := str "myapp:20250721-2118-f7a5a27", sourceTag := [] })
          else none,
        headOk := fun _ => true, downloadOk := fun _ => true,
        uploadOk := fun _ => true, copyOk := fun _ _ => true,
        deleteOk := fun _ => true }
      ⟨str "202507", str "20250722-0900"⟩ (str "bob")
      (str "myapp:20250721-2118-f7a5a27") (str "staging")
      (str "myapp") (str "20250721-2118") (str "f7a5a27")
      (blobKey (str "myapp") (str "202507") (str "20250721-2118") (str "f7a5a27"))
      (GeneratePointerKey (str "myapp") (str "staging"))
      { targetType := .image,
        targetPath := blobKey (str "myapp") (str "202507") (str "20250721-2118") (str "f7a5a27"),
        promotedAt := ⟨str "202507", str "20250721-2130"⟩,
        promotedBy := str "bob", gitHash := str "f7a5a27",
        gitTime := str "20250721-2118",
        sourceImage := str "myapp:20250721-2118-f7a5a27", sourceTag := [] }
      (by decide) (by decide) rfl rfl rfl (by decide) rfl rfl (by decide) rfl).1
    rw [h]
  · have h := (C1_promotion_idempotent_skip.2
      { store := fun k =>
          if k = GenerateTagKey (str "myapp") (str "v1.2.0") then
            some (Content.pointerC
              { targetType := .image,
                targetPath := blobKey (str "myapp") (str "202507") (str "20250721-2118") (str "f7a5a27"),
                promotedAt := ⟨str "202507", str "20250721-2130"⟩,
                promotedBy := str "bob", gitHash := str "f7a5a27",
                gitTime := str "20250721-2118",
                sourceImage := str "myapp:20250721-2118-f7a5a27", sourceTag := [] })
          else if k = GeneratePointerKey (str "myapp") (str "production") then
            some (Content.pointerC
              { targetType := .tag,
                targetPath := GenerateTagKey (str "myapp") (str "v1.2.0"),
                promotedAt := ⟨str "202507", str "20250721-2140"⟩,
                promotedBy := str "bob", gitHash := str "f7a5a27",
                gitTime := str "20250721-2118",
                sourceImage := str "myapp:20250721-2118-f7a5a27",
                sourceTag := str "v1.2.0" })
          else none,
        headOk := fun _ => true, downloadOk := fun _ => true,
        uploadOk := fun _ => true, copyOk := fun _ _ => true,
        deleteOk := fun _ => true }
      ⟨str "202507", str "20250722-0900"⟩ (str "bob")
      (str "myapp") (str "v1.2.0") (str "production")
      (GenerateTagKey (str "myapp") (str "v1.2.0"))
      (GeneratePointerKey (str "myapp") (str "production"))
      { targetType := .image,
        targetPath := blobKey (str "myapp") (str "202507") (str "20250721-2118") (str "f7a5a27"),
        promotedAt := ⟨str "202507", str "20250721-2130"⟩,
        promotedBy := str "bob", gitHash := str "f7a5a27",
        gitTime := str "20250721-2118",
        sourceImage := str "myapp:20250721-2118-f7a5a27", sourceTag := [] }
      { targetType := .tag,
        targetPath := GenerateTagKey (str "myapp") (str "v1.2.0"),
        promotedAt := ⟨str "202507", str "20250721-2140"⟩,
        promotedBy := str "bob", gitHash := str "f7a5a27",
        gitTime := str "20250721-2118",
        sourceImage := str "myapp:20250721-2118-f7a5a27",
        sourceTag := str "v1.2.0" }
      rfl rfl rfl rfl (by decide) rfl rfl (by decide) rfl).1
    rw [h]

/-! ### C5: audit failure is fatal for promote, tolerated by push and tag -/

/-- C5.  When the audit write fails, `Promote` and `PromoteFromTag` return
an error, while `Push` and `Tag` still return success. -/
theorem C5_audit_failure_asymmetry :
    (∀ (env : S3Env) (now : TimeStamp) (user source environment : Str)
       (appName gitTime gitHash : Str),
       containsChar ':' source = true →
       parseImageReference source = .ok (appName, gitTime, gitHash) →
       env.headOk (blobKey appName now.ym gitTime gitHash) = true →
       (env.store (blobKey appName now.ym gitTime gitHash)).isSome = true →
       env.headOk (GeneratePointerKey appName environment) = true →
       env.store (GeneratePointerKey appName environment) = none →
       env.uploadOk (GeneratePointerKey appName environment) = true →
       env.uploadOk (GenerateAuditKey appName now EventType.promotionE gitHash) = false →
       (promote env now user source environment).1 = .error .auditFailed) ∧
    (∀ (env : S3Env) (now : TimeStamp) (user appName version environment : Str)
       (tp : PointerMetadata),
       env.headOk (GenerateTagKey appName version) = true →
       env.downloadOk (GenerateTagKey appName version) = true →
       env.store (GenerateTagKey appName version) = some (Content.pointerC tp) →
       env.headOk (GeneratePointerKey appName environment) = true →
       env.store (GeneratePointerKey appName environment) = none →
       env.uploadOk (GeneratePointerKey appName environment) = true →
       env.uploadOk (GenerateAuditKey appName now EventType.promotionE tp.gitHash) = false →
       (promoteFromTag env now user appName version environment).1 = .error .auditFailed) ∧
    (∀ (env : S3Env) (now : TimeStamp)
       (user archiveTs gitHash gitTime newChecksum : Str) (newSize : Int)
       (imageRef : Str),
       env.headOk (GenerateMetadataKey (blobKey (extractAppName imageRef) now.ym gitTime gitHash)) = true →
       env.store (GenerateMetadataKey (blobKey (extractAppName imageRef) now.ym gitTime gitHash)) = none →
       env.uploadOk (blobKey (extractAppName imageRef) now.ym gitTime gitHash) = true →
       env.uploadOk (GenerateMetadataKey (blobKey (extractAppName imageRef) now.ym gitTime gitHash)) = true →
       env.uploadOk (GenerateAuditKey (extractAppName imageRef) now EventType.pushE gitHash) = false →
       (push env now user archiveTs true gitHash gitTime true true newChecksum
          newSize imageRef).1 =
         Except.ok { imageRef := imageRef,
                     s3Key := blobKey (extractAppName imageRef) now.ym gitTime gitHash,
                     checksum := newChecksum, size := newSize,
                     skipped := false, archived := false }) ∧
    (∀ (env : S3Env) (now : TimeStamp) (user imageRef version : Str)
       (appName gitTime gitHash : Str),
       parseImageReference imageRef = .ok (appName, gitTime, gitHash) →
       env.headOk (blobKey appName now.ym gitTime gitHash) = true →
       (env.store (blobKey appName now.ym gitTime gitHash)).isSome = true →
       env.uploadOk (GenerateTagKey appName version) = true →
       env.uploadOk (GenerateAuditKey appName now EventType.tagE gitHash) = false →
       (tagOp env now user imageRef version).1 = .ok ()) := by
  refine ⟨?_, ?_, ?_, ?_⟩
  · intro env now user source environment appName gitTime gitHash
      hcolon hparse hHeadI hPresent hHeadE hStoreE huE huA
    simp [promote, hcolon, hparse, s3head, s3download, hHeadI, hPresent,
      hHeadE, hStoreE, promoteTail, promoteUpload, pointerFromContent,
      CreateImagePointer, CreatePromotionEvent, logEvent, huE, huA]
  · intro env now user appName version environment tp
      hHeadT hDlT hStoreT hHeadE hStoreE huE huA
    simp [promoteFromTag, s3head, s3download, hHeadT, hDlT, hStoreT,
      hHeadE, hStoreE, promoteTail, promoteUpload, pointerFromContent,
      CreateTagPointer, CreatePromotionEvent, logEvent, huE, huA]
  · intro env now user archiveTs gitHash gitTime newChecksum newSize imageRef
      hHead hStore hu1 hu2 huA
    simp [push, s3head, s3download, hHead, hStore, pushUploadPhase,
      hu1, hu2, CreatePushEvent, logEvent, huA]
  · intro env now user imageRef version appName gitTime gitHash
      hparse hHeadI hPresent huT huA
    simp [tagOp, hparse, s3head, s3download, hHeadI, hPresent,
      CreateImagePointer, CreateTagEvent, logEvent, huT, huA]

/-- A concrete environment whose audit keys refuse uploads while every
other key accepts them: the blob and the `v1.2.0` tag pointer exist, no
environment pointer or sidecar does. -/
def envAuditDown : S3Env :=
  { store := fun k =>
      if k = blobKey (str "myapp") (str "202507") (str "20250721-2118") (str "f7a5a27") then
        some (Content.blobC (str "aa"))
      else if k = GenerateTagKey (str "myapp") (str "v1.2.0") then
        some (Content.pointerC
          { targetType := .image,
            targetPath := blobKey (str "myapp") (str "202507") (str "20250721-2118") (str "f7a5a27"),
            promotedAt := ⟨str "202507", str "20250721-2130"⟩,
            promotedBy := str "bob", gitHash := str "f7a5a27",
            gitTime := str "20250721-2118",
            sourceImage := str "myapp:20250721-2118-f7a5a27", sourceTag := [] })
      else none,
    headOk := fun _ => true, downloadOk := fun _ => true,
    uploadOk := fun k =>
      if k = GenerateAuditKey (str "myapp") ⟨str "202507", str "20250722-0900"⟩
          EventType.promotionE (str "f7a5a27") then false
      else if k = GenerateAuditKey (str "myapp") ⟨str "202507", str "20250722-0900"⟩
          EventType.pushE (str "f7a5a27") then false
      else if k = GenerateAuditKey (str "myapp") ⟨str "202507", str "20250722-0900"⟩
          EventType.tagE (str "f7a5a27") then false
      else true,
    copyOk := fun _ _ => true, deleteOk := fun _ => true }

/-- Witness for C5: against `envAuditDown`, promotion (both entry points)
fails with the audit error while push and tag succeed. -/
theorem C5_witness :
    (promote envAuditDown ⟨str "202507", str "20250722-0900"⟩ (str "bob")
      (str "myapp:20250721-2118-f7a5a27") (str "staging")).1 = .error .auditFailed ∧
    (promoteFromTag envAuditDown ⟨str "202507", str "20250722-0900"⟩ (str "bob")
      (str "myapp") (str "v1.2.0") (str "production")).1 = .error .auditFailed ∧
    (push envAuditDown ⟨str "202507", str "20250722-0900"⟩ (str "bob")
      (str "20250722-0900") true (str "f7a5a27") (str "20250721-2118") true true
      (str "aa") 10 (str "myapp:20250721-2118-f7a5a27")).1 =
      Except.ok { imageRef := str "myapp:20250721-2118-f7a5a27",
                  s3Key := blobKey (extractAppName (str "myapp:20250721-2118-f7a5a27"))
                    (str "202507") (str "20250721-2118") (str "f7a5a27"),
                  checksum := str "aa", size := 10,
                  skipped := false, archived := false } ∧
    (tagOp envAuditDown ⟨str "202507", str "20250722-0900"⟩ (str "bob")
      (str "myapp:20250721-2118-f7a5a27") (str "v2.0.0")).1 = .ok () := by
  refine ⟨?_, ?_, ?_, ?_⟩
  · exact C5_audit_failure_asymmetry.1 envAuditDown
      ⟨str "202507", str "20250722-0900"⟩ (str "bob")
      (str "myapp:20250721-2118-f7a5a27") (str "staging")
      (str "myapp") (str "20250721-2118") (str "f7a5a27")
      (by decide) (by decide) (by decide) (by decide) (by decide) (by decide)
      (by decide) (by decide)
  · exact C5_audit_failure_asymmetry.2.1 envAuditDown
      ⟨str "202507", str "20250722-0900"⟩ (str "bob")
      (str "myapp") (str "v1.2.0") (str "production")
      { targetType := .image,
        targetPath := blobKey (str "myapp") (str "202507") (str "20250721-2118") (str "f7a5a27"),
        promotedAt := ⟨str "202507", str "20250721-2130"⟩,
        promotedBy := str "bob", gitHash := str "f7a5a27",
        gitTime := str "20250721-2118",
        sourceImage := str "myapp:20250721-2118-f7a5a27", sourceTag := [] }
      (by decide) (by decide) (by decide) (by decide) (by decide) (by decide)
      (by decide)
  · exact C5_audit_failure_asymmetry.2.2.1 envAuditDown
      ⟨str "202507", str "20250722-0900"⟩ (str "bob") (str "20250722-0900")
      (str "f7a5a27") (str "20250721-2118") (str "aa") 10
      (str "myapp:20250721-2118-f7a5a27")
      (by decide) (by decide) (by decide) (by decide) (by decide)
  · exact C5_audit_failure_asymmetry.2.2.2 envAuditDown
      ⟨str "202507", str "20250722-0900"⟩ (str "bob")
      (str "myapp:20250721-2118-f7a5a27") (str "v2.0.0")
      (str "myapp") (str "20250721-2118") (str "f7a5a27")
      (by decide) (by decide) (by decide) (by decide) (by decide)

/-! ### C9: resolver termination -/

/-- A tag pointer whose stored target is itself: the malformed cyclic
chain of C9. -/
def cyclicPointer : PointerMetadata :=
  { targetType := .tag, targetPath := str "tags/myapp/loop.json",
    promotedAt := ⟨str "202507", str "20250722-0900"⟩,
    promotedBy := str "bob", gitHash := str "f7a5a27",
    gitTime := str "20250721-2118",
    sourceImage := str "myapp:20250721-2118-f7a5a27",
    sourceTag := str "loop" }

/-- A store holding the cyclic tag pointer under its own target key. -/
def cyclicEnv : S3Env :=
  { store := fun k =>
      if k = str "tags/myapp/loop.json" then some (Content.pointerC cyclicPointer)
      else none,
    headOk := fun _ => true, downloadOk := fun _ => true,
    uploadOk := fun _ => true, copyOk := fun _ _ => true,
    deleteOk := fun _ => true }

/-- The unbounded recursion of `ResolveImagePath` diverges on a pointer
when every amount of fuel runs out before an answer is produced. -/
def resolutionDiverges (env : S3Env) (p : PointerMetadata) : Prop :=
  ∀ fuel, resolveImagePathFuel env fuel p = .fuelOut

/-- Counterexample to C9 as stated: on the concrete cyclic tag chain
(`tags/myapp/loop.json` pointing to itself) the resolver exhausts every
fuel, i.e. the unbounded Go recursion of `ResolveImagePath` never
terminates, so resolution does not terminate for every object-store
contents and no constant bounds its depth. -/
theorem C9_counterexample_cycle : resolutionDiverges cyclicEnv cyclicPointer := by
  intro fuel
  induction fuel with
  | zero => rfl
  | succ n ih =>
    have hstep : resolveImagePathFuel cyclicEnv (n + 1) cyclicPointer =
        resolveImagePathFuel cyclicEnv n cyclicPointer := by
      simp [resolveImagePathFuel, cyclicPointer, cyclicEnv, s3download,
        pointerFromContent]
    rw [hstep, ih]

/-- C9 (amended).  Resolution terminates, with recursion depth bounded by
a small constant, for every store satisfying the documented pointer
invariant that stored pointers are image-variant (tags point only to
images): any fuel of at least 2 — in particular the spec's suggested
bound 4 — already returns a definitive answer.  Without the invariant, a
malformed cyclic tag chain makes the resolver recurse forever (see the
counterexample). -/
theorem C9_resolver_terminates_on_invariant_stores :
    ∀ (env : S3Env) (p : PointerMetadata) (fuel : Nat),
    (∀ k q, env.store k = some (Content.pointerC q) → q.targetType = .image) →
    2 ≤ fuel → resolveImagePathFuel env fuel p ≠ .fuelOut := by
  intro env p fuel hInv hfuel
  match fuel, hfuel with
  | Nat.succ (Nat.succ m), _ =>
    rcases hp : p.targetType with _ | _
    · simp [resolveImagePathFuel, hp]
    · simp only [resolveImagePathFuel, hp]
      rcases hdl : s3download env p.targetPath with _ | c
      · simp
      · have hstore : env.store p.targetPath = some c := by
          rw [s3download] at hdl
          by_cases hok : env.downloadOk p.targetPath
          · rwa [if_pos hok] at hdl
          · rw [if_neg hok] at hdl
            exact absurd hdl (by simp)
        rcases hc : pointerFromContent c with _ | q
        · simp [hc]
        · have hcq : c = Content.pointerC q := by
            cases c <;> simp [pointerFromContent] at hc
            rw [hc]
          have hq : q.targetType = .image := hInv _ _ (hcq ▸ hstore)
          simp [hc, hq]

/-- A well-formed tag pointer: image variant, targeting a blob key. -/
def goodImagePointer : PointerMetadata :=
  { targetType := .image,
    targetPath := str "images/myapp/202507/myapp-20250721-2118-f7a5a27.tar.gz",
    promotedAt := ⟨str "202507", str "20250722-0900"⟩,
    promotedBy := str "bob", gitHash := str "f7a5a27",
    gitTime := str "20250721-2118",
    sourceImage := str "myapp:20250721-2118-f7a5a27", sourceTag := [] }

/-- An environment pointer referencing the tag key of
`goodImagePointer`. -/
def goodEnvPointer : PointerMetadata :=
  { targetType := .tag, targetPath := str "tags/myapp/v1.2.0.json",
    promotedAt := ⟨str "202507", str "20250722-0900"⟩,
    promotedBy := str "bob", gitHash := str "f7a5a27",
    gitTime := str "20250721-2118",
    sourceImage := str "myapp:20250721-2118-f7a5a27",
    sourceTag := str "v1.2.0" }

/-- A store satisfying the documented invariant: its only pointer is the
image-variant `goodImagePointer` under the tag key. -/
def goodEnv : S3Env :=
  { store := fun k =>
      if k = str "tags/myapp/v1.2.0.json" then some (Content.pointerC goodImagePointer)
      else none,
    headOk := fun _ => true, downloadOk := fun _ => true,
    uploadOk := fun _ => true, copyOk := fun _ _ => true,
    deleteOk := fun _ => true }

/-- Witness for the amended C9: a store whose single tag pointer targets
an image pointer resolves within fuel 4. -/
theorem C9_witness :
    resolveImagePathFuel goodEnv 4 goodEnvPointer ≠ .fuelOut := by
  refine C9_resolver_terminates_on_invariant_stores _ _ 4 ?_ (by decide)
  intro k q h
  by_cases hk : k = str "tags/myapp/v1.2.0.json"
  · subst hk
    have h2 : some (Content.pointerC goodImagePointer) = some (Content.pointerC q) := by
      rw [← h]
      simp [goodEnv]
    injection h2 with h3
    injection h3 with h4
    rw [← h4]
    rfl
  · simp [goodEnv, hk] at h

/-! ### C4: pull skips download and import when the runtime has the image -/

/-- C4.  For both pointer variants, when the image reference derived from
the resolved blob key is already present in the container runtime, the
pull performs no blob download and no runtime import and returns the
reference successfully. -/
theorem C4_pull_skip_when_runtime_has_image :
    (∀ (env : PullEnv) (appName environment ref : Str) (p : PointerMetadata),
       env.headOk (GeneratePointerKey appName environment) = true →
       env.downloadOk (GeneratePointerKey appName environment) = true →
       env.store (GeneratePointerKey appName environment) = some (Content.pointerC p) →
       p.targetType = .image →
       extractImageReferenceFromPath p.targetPath = .ok ref →
       env.runtimeHas ref = some true →
       pullSpecModel env appName environment =
         (Except.ok ref,
          [PullOp.s3Head (GeneratePointerKey appName environment),
           PullOp.s3Download (GeneratePointerKey appName environment),
           PullOp.runtimeHasCheck ref]) ∧
       (∀ k, PullOp.blobDownload k ∉ (pullSpecModel env appName environment).2) ∧
       (∀ r, PullOp.runtimeImport r ∉ (pullSpecModel env appName environment).2)) ∧
    (∀ (env : PullEnv) (appName environment ref : Str) (p tp : PointerMetadata),
       env.headOk (GeneratePointerKey appName environment) = true →
       env.downloadOk (GeneratePointerKey appName environment) = true →
       env.store (GeneratePointerKey appName environment) = some (Content.pointerC p) →
       p.targetType = .tag →
       env.downloadOk p.targetPath = true →
       env.store p.targetPath = some (Content.pointerC tp) →
       extractImageReferenceFromPath tp.targetPath = .ok ref →
       env.runtimeHas ref = some true →
       pullSpecModel env appName environment =
         (Except.ok ref,
          [PullOp.s3Head (GeneratePointerKey appName environment),
           PullOp.s3Download (GeneratePointerKey appName environment),
           PullOp.s3Download p.targetPath,
           PullOp.runtimeHasCheck ref]) ∧
       (∀ k, PullOp.blobDownload k ∉ (pullSpecModel env appName environment).2) ∧
       (∀ r, PullOp.runtimeImport r ∉ (pullSpecModel env appName environment).2)) := by
  constructor
  · intro env appName environment ref p hHead hDl hStore hType hExtract hHas
    have hmain : pullSpecModel env appName environment =
        (Except.ok ref,
         [PullOp.s3Head (GeneratePointerKey appName environment),
          PullOp.s3Download (GeneratePointerKey appName environment),
          PullOp.runtimeHasCheck ref]) := by
      simp [pullSpecModel, pullHead, pullDownload, pointerFromContent,
        pullOfBlobKey, hHead, hDl, hStore, hType, hExtract, hHas]
    refine ⟨hmain, ?_, ?_⟩ <;> intro k <;> rw [hmain] <;> simp
  · intro env appName environment ref p tp hHead hDl hStore hType hDlT hStoreT hExtract hHas
    have hmain : pullSpecModel env appName environment =
        (Except.ok ref,
         [PullOp.s3Head (GeneratePointerKey appName environment),
          PullOp.s3Download (GeneratePointerKey appName environment),
          PullOp.s3Download p.targetPath,
          PullOp.runtimeHasCheck ref]) := by
      simp [pullSpecModel, pullHead, pullDownload, pointerFromContent,
        pullOfBlobKey, hHead, hDl, hStore, hType, hDlT, hStoreT, hExtract, hHas]
    refine ⟨hmain, ?_, ?_⟩ <;> intro k <;> rw [hmain] <;> simp

/-- A pull environment whose runtime already has every image and whose
store maps the production pointer to `goodImagePointer`. -/
def pullEnvRuntimeHasAll : PullEnv :=
  { store := fun k =>
      if k = GeneratePointerKey (str "myapp") (str "production") then
        some (Content.pointerC goodImagePointer)
      else none,
    headOk := fun _ => true, downloadOk := fun _ => true,
    runtimeHas := fun _ => some true,
    attemptChecksum := fun _ => none, importOk := true }

/-- Witness for C4: a concrete pull that returns the derived reference
with the skip trace. -/
theorem C4_witness :
    (pullSpecModel pullEnvRuntimeHasAll (str "myapp") (str "production")).1 =
      Except.ok (str "myapp:20250721-2118-f7a5a27") := by
  have h := (C4_pull_skip_when_runtime_has_image.1 pullEnvRuntimeHasAll
    (str "myapp") (str "production") (str "myapp:20250721-2118-f7a5a27")
    goodImagePointer rfl rfl (by decide) rfl (by decide) rfl).1
  rw [h]

/-! ### String-parsing lemmas for the round-trip claims -/

theorem splitChar_ne_nil (sep : Char) (s : Str) : splitChar sep s ≠ [] := by
  cases s with
  | nil => simp [splitChar]
  | cons c rest =>
    rw [splitChar]
    rcases splitChar sep rest with _ | ⟨h1, t⟩
    · by_cases hc : c = sep <;> simp [hc]
    · by_cases hc : c = sep <;> simp [hc]

theorem splitChar_no_sep (sep : Char) (s : Str) (h : sep ∉ s) :
    splitChar sep s = [s] := by
  induction s with
  | nil => rfl
  | cons c rest ih =>
    have hc : ¬ c = sep := fun hc => h (hc ▸ List.mem_cons_self c rest)
    have hrest : sep ∉ rest := fun hr => h (List.mem_cons_of_mem c hr)
    rw [splitChar, ih hrest]
    simp [hc]

theorem splitChar_append (sep : Char) (a b : Str) (ha : sep ∉ a) :
    splitChar sep (a ++ sep :: b) = a :: splitChar sep b := by
  induction a with
  | nil =>
    rw [List.nil_append, splitChar]
    rcases h : splitChar sep b with _ | ⟨h1, t⟩
    · exact absurd h (splitChar_ne_nil sep b)
    · simp
  | cons x xs ih =>
    have hx : ¬ x = sep := fun hc => ha (hc ▸ List.mem_cons_self x xs)
    have hxs : sep ∉ xs := fun hr => ha (List.mem_cons_of_mem x hr)
    rw [List.cons_append, splitChar, ih hxs]
    simp [hx]

theorem lastIndexChar_not_mem (s : Str) (c : Char) (h : c ∉ s) :
    lastIndexChar s c = -1 := by
  induction s with
  | nil => rfl
  | cons x xs ih =>
    have hx : ¬ x = c := fun hc => h (hc ▸ List.mem_cons_self x xs)
    have hxs : c ∉ xs := fun hr => h (List.mem_cons_of_mem x hr)
    rw [lastIndexChar]
    simp [ih hxs, hx]

theorem lastIndexChar_append_last (a b : Str) (c : Char) (hb : c ∉ b) :
    lastIndexChar (a ++ c :: b) c = Int.ofNat a.length := by
  induction a with
  | nil =>
    rw [List.nil_append, lastIndexChar]
    simp [lastIndexChar_not_mem b c hb]
  | cons x xs ih =>
    rw [List.cons_append, lastIndexChar]
    simp only [ih]
    have hne : ¬ (Int.ofNat xs.length = -1) := by
      rw [Int.ofNat_eq_natCast]
      omega
    rw [if_neg hne, List.length_cons]
    simp [Int.ofNat_eq_natCast]

theorem takeWhile_append_all (p : Char → Bool) (l : Str) (hl : ∀ x ∈ l, p x = true)
    (c : Char) (hc : p c = false) (r : Str) :
    (l ++ c :: r).takeWhile p = l := by
  induction l with
  | nil => simp [List.takeWhile, hc]
  | cons x xs ih =>
    have hx : p x = true := hl x (List.mem_cons_self x xs)
    have hxs : ∀ y ∈ xs, p y = true := fun y hy => hl y (List.mem_cons_of_mem x hy)
    simp [List.takeWhile, hx, ih hxs]

theorem dropWhile_cons_false (p : Char → Bool) (c : Char) (hc : p c = false) (r : Str) :
    (c :: r).dropWhile p = c :: r := by
  simp [List.dropWhile, hc]

theorem afterLast_slash (a b : Str) (hnb : '/' ∉ b) :
    afterLast '/' (a ++ '/' :: b) = b := by
  rw [afterLast]
  have hrev : (a ++ '/' :: b).reverse = b.reverse ++ '/' :: a.reverse := by simp
  rw [hrev, takeWhile_append_all _ b.reverse
    (fun x hx => by
      have hxb : x ∈ b := by simpa using hx
      have : ¬ x = '/' := fun hc => hnb (hc ▸ hxb)
      simp [this])
    '/' (by simp) a.reverse, List.reverse_reverse]

theorem pathBase_slash (a b : Str) (hb : b ≠ []) (hnb : '/' ∉ b) :
    pathBase (a ++ '/' :: b) = b := by
  have hbrev : b.reverse ≠ [] := by simpa using hb
  obtain ⟨z, zs, hz⟩ := List.exists_cons_of_ne_nil hbrev
  have hzb : z ∈ b := by
    have : z ∈ b.reverse := by rw [hz]; exact List.mem_cons_self z zs
    simpa using this
  have hzslash : ¬ z = '/' := fun hc => hnb (hc ▸ hzb)
  have hsrev : (a ++ '/' :: b).reverse = z :: (zs ++ '/' :: a.reverse) := by
    simp [hz]
  rw [pathBase, if_neg (by simp : ¬ (a ++ '/' :: b : Str) = [])]
  simp only [hsrev]
  rw [dropWhile_cons_false _ z (by simp [hzslash]) _]
  have hback : (z :: (zs ++ '/' :: a.reverse)).reverse = a ++ '/' :: b := by
    rw [← hsrev, List.reverse_reverse]
  rw [hback, if_neg (by simp : ¬ (a ++ '/' :: b : Str) = [])]
  exact afterLast_slash a b hnb

theorem trimSuffix_append (suf q : Str) : trimSuffix suf (q ++ suf) = q := by
  rw [trimSuffix, if_pos]
  · rw [List.length_append]
    have : q.length + suf.length - suf.length = q.length := by omega
    rw [this, List.take_left]
  · rw [List.isSuffixOf_iff_suffix]
    exact List.suffix_append q suf

theorem splitN2_append (sep : Char) (a b : Str) (ha : sep ∉ a) :
    splitN2 sep (a ++ sep :: b) = [a, b] := by
  rw [splitN2]
  have htw : (a ++ sep :: b).takeWhile (fun c => c ≠ sep) = a :=
    takeWhile_append_all _ a
      (fun x hx => by
        have : ¬ x = sep := fun hc => ha (hc ▸ hx)
        simp [this])
      sep (by simp) b
  simp only [htw]
  rw [List.drop_left]

theorem countChar_two (gitTime gitHash : Str) (h1 : countChar '-' gitTime = 1)
    (h2 : '-' ∉ gitHash) :
    countChar '-' (gitTime ++ '-' :: gitHash) = 2 := by
  rw [countChar, List.count_append, List.count_cons]
  have hz : gitHash.count '-' = 0 := List.count_eq_zero.mpr h2
  rw [hz]
  rw [countChar] at h1
  simp [h1]

theorem take_drop_at_last_dash (gitTime gitHash : Str) (h2 : '-' ∉ gitHash) :
    (lastIndexChar (gitTime ++ '-' :: gitHash) '-' = Int.ofNat gitTime.length) ∧
    (gitTime ++ '-' :: gitHash).take gitTime.length = gitTime ∧
    (gitTime ++ '-' :: gitHash).drop (gitTime.length + 1) = gitHash := by
  refine ⟨lastIndexChar_append_last gitTime gitHash '-' h2, List.take_left gitTime _, ?_⟩
  have : gitTime ++ '-' :: gitHash = (gitTime ++ ['-']) ++ gitHash := by simp
  rw [this]
  have hlen : (gitTime ++ ['-']).length = gitTime.length + 1 := by simp
  rw [← hlen, List.drop_left]

theorem parse_tail (app tagPart : Str) (hac : ':' ∉ app) (htc : ':' ∉ tagPart) :
    parseImageReference (app ++ ':' :: tagPart) =
      (if countChar '-' tagPart ≠ 2 then .error .invalidTag
       else if lastIndexChar tagPart '-' = -1 then .error .invalidTag
       else
         if (tagPart.drop ((lastIndexChar tagPart '-').toNat + 1)).length < 5 ∨
            (tagPart.take (lastIndexChar tagPart '-').toNat).length ≠ 13 ∨
            (tagPart.take (lastIndexChar tagPart '-').toNat).get? 8 ≠ some '-' then
           .error .invalidTag
         else .ok (app, tagPart.take (lastIndexChar tagPart '-').toNat,
                   tagPart.drop ((lastIndexChar tagPart '-').toNat + 1))) := by
  have hsp : splitChar ':' (app ++ ':' :: tagPart) = [app, tagPart] := by
    rw [splitChar_append ':' app tagPart hac, splitChar_no_sep ':' tagPart htc]
  rw [parseImageReference, hsp]

theorem extract_tail (q appName timestampHash : Str)
    (hsplit : splitN2 '-' (pathBase q) = [appName, timestampHash]) :
    extractImageReferenceFromPath (q ++ str ".tar.gz") =
      (if countChar '-' timestampHash ≠ 2 then .error .badTimestampHash
       else if lastIndexChar timestampHash '-' = -1 then .error .badTimestampHash
       else if (timestampHash.take (lastIndexChar timestampHash '-').toNat).length ≠ 13 ∨
               (timestampHash.take (lastIndexChar timestampHash '-').toNat).get? 8 ≠ some '-' then
         .error .badTimestamp
       else if (timestampHash.drop ((lastIndexChar timestampHash '-').toNat + 1)).length < 5 then
         .error .badHash
       else .ok (appName ++ str ":" ++
                 timestampHash.take (lastIndexChar timestampHash '-').toNat ++ str "-" ++
                 timestampHash.drop ((lastIndexChar timestampHash '-').toNat + 1))) := by
  have hsuf : (str ".tar.gz").isSuffixOf (q ++ str ".tar.gz") = true := by
    rw [List.isSuffixOf_iff_suffix]
    exact List.suffix_append _ _
  rw [extractImageReferenceFromPath, if_neg (not_not_intro hsuf),
    trimSuffix_append (str ".tar.gz") q]
  simp only []
  rw [hsplit]

theorem lastIndexChar_nonneg_of_mem (s : Str) (c : Char) (h : c ∈ s) :
    0 ≤ lastIndexChar s c := by
  induction s with
  | nil => exact absurd h (List.not_mem_nil c)
  | cons x xs ih =>
    rw [lastIndexChar]
    by_cases hx : c ∈ xs
    · have hr := ih hx
      have hne : ¬ lastIndexChar xs c = -1 := by omega
      rw [if_neg hne]
      omega
    · have heq : x = c := by
        rcases List.mem_cons.mp h with h | h
        · exact h.symm
        · exact absurd h hx
      rw [lastIndexChar_not_mem xs c hx]
      simp [heq]

theorem parse_wellformed (app gitTime gitHash : Str)
    (hac : ':' ∉ app) (htcl : ':' ∉ gitTime) (hhc : ':' ∉ gitHash)
    (hhd : '-' ∉ gitHash) (htc : countChar '-' gitTime = 1)
    (ht13 : gitTime.length = 13) (ht8 : gitTime.get? 8 = some '-')
    (hh5 : 5 ≤ gitHash.length) :
    parseImageReference (app ++ str ":" ++ gitTime ++ str "-" ++ gitHash) =
      .ok (app, gitTime, gitHash) := by
  obtain ⟨hL, hT, hD⟩ := take_drop_at_last_dash gitTime gitHash hhd
  have hcount := countChar_two gitTime gitHash htc hhd
  have hne : ¬ (Int.ofNat gitTime.length = -1) := by
    rw [Int.ofNat_eq_natCast]
    omega
  have htn : (Int.ofNat gitTime.length).toNat = gitTime.length := rfl
  have hlt : ¬ (gitHash.length < 5) := by omega
  have htag_colon : ':' ∉ gitTime ++ '-' :: gitHash := by
    intro h
    rcases List.mem_append.mp h with h | h
    · exact htcl h
    · rcases List.mem_cons.mp h with h | h
      · exact absurd h (by decide)
      · exact hhc h
  have hiref : app ++ str ":" ++ gitTime ++ str "-" ++ gitHash =
      app ++ ':' :: (gitTime ++ '-' :: gitHash) := by
    simp [show str ":" = [':'] from rfl, show str "-" = ['-'] from rfl,
      List.append_assoc]
  have hcondP : ¬ (gitHash.length < 5 ∨ ¬ gitTime.length = 13 ∨
      ¬ gitTime.get? 8 = some '-') := by
    intro h
    rcases h with h | h | h
    · exact hlt h
    · exact h ht13
    · exact h ht8
  rw [hiref, parse_tail app _ hac htag_colon]
  rw [hcount, if_neg (not_not_intro rfl), hL, if_neg hne, htn, hT, hD]
  rw [if_neg hcondP]

theorem extract_wellformed (app ym gitTime gitHash : Str)
    (had : '-' ∉ app) (has : '/' ∉ app)
    (ht13 : gitTime.length = 13) (ht8 : gitTime.get? 8 = some '-')
    (htc : countChar '-' gitTime = 1) (hts : '/' ∉ gitTime)
    (hhd : '-' ∉ gitHash) (hhs : '/' ∉ gitHash)
    (hh5 : 5 ≤ gitHash.length) :
    extractImageReferenceFromPath (blobKey app ym gitTime gitHash) =
      .ok (app ++ str ":" ++ gitTime ++ str "-" ++ gitHash) := by
  obtain ⟨hL, hT, hD⟩ := take_drop_at_last_dash gitTime gitHash hhd
  have hcount := countChar_two gitTime gitHash htc hhd
  have hne : ¬ (Int.ofNat gitTime.length = -1) := by
    rw [Int.ofNat_eq_natCast]
    omega
  have htn : (Int.ofNat gitTime.length).toNat = gitTime.length := rfl
  have hlt : ¬ (gitHash.length < 5) := by omega
  have hcondT : ¬ (¬ gitTime.length = 13 ∨ ¬ gitTime.get? 8 = some '-') := by
    intro h
    rcases h with h | h
    · exact h ht13
    · exact h ht8
  have hblob : blobKey app ym gitTime gitHash =
      (str "images/" ++ app ++ str "/" ++ ym ++ str "/" ++ app ++ str "-" ++
        gitTime ++ str "-" ++ gitHash) ++ str ".tar.gz" := rfl
  have hfname_shape : str "images/" ++ app ++ str "/" ++ ym ++ str "/" ++ app ++
      str "-" ++ gitTime ++ str "-" ++ gitHash =
      (str "images/" ++ app ++ str "/" ++ ym) ++ '/' ::
        (app ++ '-' :: (gitTime ++ '-' :: gitHash)) := by
    simp [show str "/" = ['/'] from rfl, show str "-" = ['-'] from rfl,
      List.append_assoc]
  have hfname_ne : (app ++ '-' :: (gitTime ++ '-' :: gitHash) : Str) ≠ [] := by simp
  have hfname_slash : '/' ∉ app ++ '-' :: (gitTime ++ '-' :: gitHash) := by
    intro h
    rcases List.mem_append.mp h with h | h
    · exact has h
    · rcases List.mem_cons.mp h with h | h
      · exact absurd h (by decide)
      · rcases List.mem_append.mp h with h | h
        · exact hts h
        · rcases List.mem_cons.mp h with h | h
          · exact absurd h (by decide)
          · exact hhs h
  have hsplit2 : splitN2 '-' (pathBase (str "images/" ++ app ++ str "/" ++ ym ++
      str "/" ++ app ++ str "-" ++ gitTime ++ str "-" ++ gitHash)) =
      [app, gitTime ++ '-' :: gitHash] := by
    rw [show pathBase (str "images/" ++ app ++ str "/" ++ ym ++ str "/" ++ app ++
        str "-" ++ gitTime ++ str "-" ++ gitHash) =
        app ++ '-' :: (gitTime ++ '-' :: gitHash) from by
      rw [hfname_shape]
      exact pathBase_slash _ _ hfname_ne hfname_slash]
    exact splitN2_append '-' app (gitTime ++ '-' :: gitHash) had
  rw [hblob, extract_tail _ _ _ hsplit2]
  rw [hcount, if_neg (not_not_intro rfl), hL, if_neg hne, htn, hT, hD]
  rw [if_neg hcondT, if_neg hlt]


/-! ### C6: blob-key / image-reference round trip -/

/-- Counterexample to C6 as stated: for the well-formed blob key of the
app `my-app` — an app name containing a dash — the key-to-reference
conversion fails (the first dash splits inside the app name, leaving
three dashes in the supposed timestamp-hash part), so the composition
cannot return the original `(app, gitTime, gitHash)`. -/
theorem C6_counterexample_dashed_app :
    extractImageReferenceFromPath
      (blobKey (str "my-app") (str "202507") (str "20250721-1430") (str "abc1234")) =
      .error .badTimestampHash := by decide

/-- C6 (amended).  For every well-formed blob key whose app segment
contains no dash (and no slash or colon), with a 13-character
`YYYYMMDD-HHMM` git time carrying its only dash at index 8 and a
dash-free git hash of at least 5 characters, converting the key to an
image reference and parsing that reference yields exactly the original
`(app, gitTime, gitHash)`.  (The claim's "including when {app} itself
contains dashes" is false — see the counterexample.) -/
theorem C6_roundtrip_dashfree_app (app ym gitTime gitHash : Str)
    (had : '-' ∉ app) (has : '/' ∉ app) (hac : ':' ∉ app)
    (ht13 : gitTime.length = 13) (ht8 : gitTime.get? 8 = some '-')
    (htc : countChar '-' gitTime = 1) (hts : '/' ∉ gitTime) (htcl : ':' ∉ gitTime)
    (hhd : '-' ∉ gitHash) (hhs : '/' ∉ gitHash) (hhc : ':' ∉ gitHash)
    (hh5 : 5 ≤ gitHash.length) :
    extractImageReferenceFromPath (blobKey app ym gitTime gitHash) =
      .ok (app ++ str ":" ++ gitTime ++ str "-" ++ gitHash) ∧
    parseImageReference (app ++ str ":" ++ gitTime ++ str "-" ++ gitHash) =
      .ok (app, gitTime, gitHash) :=
  ⟨extract_wellformed app ym gitTime gitHash had has ht13 ht8 htc hts hhd hhs hh5,
   parse_wellformed app gitTime gitHash hac htcl hhc hhd htc ht13 ht8 hh5⟩

/-- Witness for the amended C6: the round trip at the spec's S1 values. -/
theorem C6_witness :
    extractImageReferenceFromPath
      (blobKey (str "myapp") (str "202507") (str "20250721-2118") (str "f7a5a27")) =
      .ok (str "myapp" ++ str ":" ++ str "20250721-2118" ++ str "-" ++ str "f7a5a27") ∧
    parseImageReference
      (str "myapp" ++ str ":" ++ str "20250721-2118" ++ str "-" ++ str "f7a5a27") =
      .ok (str "myapp", str "20250721-2118", str "f7a5a27") :=
  C6_roundtrip_dashfree_app (str "myapp") (str "202507") (str "20250721-2118")
    (str "f7a5a27") (by decide) (by decide) (by decide) (by decide) (by decide)
    (by decide) (by decide) (by decide) (by decide) (by decide) (by decide)
    (by decide)

/-! ### C7: characterisation of ParseImageReference -/

/-- C7.  For inputs with exactly one colon, `ParseImageReference` fails
exactly when the tag part does not contain exactly two dashes, or the
part before its last dash is not 13 characters with a dash at index 8,
or the part after its last dash is shorter than 5 characters; on every
other input of the form `{app}:{gitTime}-{gitHash}` it returns
`(app, gitTime, gitHash)`. -/
theorem C7_parseImageReference_characterisation :
    (∀ app tagPart : Str, ':' ∉ app → ':' ∉ tagPart →
       ((parseImageReference (app ++ ':' :: tagPart)).isOk = false ↔
         ¬ (countChar '-' tagPart = 2 ∧
            (tagPart.take (lastIndexChar tagPart '-').toNat).length = 13 ∧
            (tagPart.take (lastIndexChar tagPart '-').toNat).get? 8 = some '-' ∧
            5 ≤ (tagPart.drop ((lastIndexChar tagPart '-').toNat + 1)).length)) ∧
       (countChar '-' tagPart = 2 →
         (tagPart.take (lastIndexChar tagPart '-').toNat).length = 13 →
         (tagPart.take (lastIndexChar tagPart '-').toNat).get? 8 = some '-' →
         5 ≤ (tagPart.drop ((lastIndexChar tagPart '-').toNat + 1)).length →
         parseImageReference (app ++ ':' :: tagPart) =
           .ok (app, tagPart.take (lastIndexChar tagPart '-').toNat,
                tagPart.drop ((lastIndexChar tagPart '-').toNat + 1)))) ∧
    (∀ app gitTime gitHash : Str, ':' ∉ app → ':' ∉ gitTime → ':' ∉ gitHash →
       '-' ∉ gitHash → countChar '-' gitTime = 1 →
       gitTime.length = 13 → gitTime.get? 8 = some '-' → 5 ≤ gitHash.length →
       parseImageReference (app ++ str ":" ++ gitTime ++ str "-" ++ gitHash) =
         .ok (app, gitTime, gitHash)) := by
  constructor
  · intro app tagPart hac htc
    have hred := parse_tail app tagPart hac htc
    have hdashne : countChar '-' tagPart = 2 → ¬ lastIndexChar tagPart '-' = -1 := by
      intro h2
      have hmem : '-' ∈ tagPart := by
        by_contra hnm
        rw [countChar, List.count_eq_zero.mpr hnm] at h2
        omega
      have := lastIndexChar_nonneg_of_mem tagPart '-' hmem
      omega
    constructor
    · rw [hred]
      split_ifs with hcnt hdash hval
      · exact ⟨fun _ hconj => hcnt hconj.1, fun _ => rfl⟩
      · exact absurd hdash (hdashne (not_not.mp hcnt))
      · refine ⟨fun _ hconj => ?_, fun _ => rfl⟩
        obtain ⟨hx1, hx2, hx3, hx4⟩ := hconj
        rcases hval with h | h | h
        · omega
        · exact h hx2
        · exact h hx3
      · constructor
        · intro hfalse
          exact Bool.noConfusion hfalse
        · intro hneg
          push_neg at hval
          obtain ⟨hv1, hv2, hv3⟩ := hval
          exact absurd ⟨not_not.mp hcnt, hv2, hv3, by omega⟩ hneg
    · intro h2 h13 h8 h5
      rw [hred]
      rw [if_neg (not_not_intro h2), if_neg (hdashne h2)]
      rw [if_neg (by
        intro h
        rcases h with h | h | h
        · omega
        · exact h h13
        · exact h h8)]
  · intro app gitTime gitHash hac htcl hhc hhd htc ht13 ht8 hh5
    exact parse_wellformed app gitTime gitHash hac htcl hhc hhd htc ht13 ht8 hh5

/-- Witness for C7: a valid reference parses to its components, and a
reference with a 4-character hash is rejected. -/
theorem C7_witness :
    parseImageReference (str "myapp" ++ str ":" ++ str "20250721-2118" ++
        str "-" ++ str "f7a5a27") =
      .ok (str "myapp", str "20250721-2118", str "f7a5a27") ∧
    (parseImageReference (str "myapp" ++ ':' :: str "20250721-2118-f7a5")).isOk = false := by
  constructor
  · exact C7_parseImageReference_characterisation.2 (str "myapp")
      (str "20250721-2118") (str "f7a5a27") (by decide) (by decide) (by decide)
      (by decide) (by decide) (by decide) (by decide) (by decide)
  · exact ((C7_parseImageReference_characterisation.1 (str "myapp")
      (str "20250721-2118-f7a5") (by decide) (by decide)).1).mpr (by decide)

end S3dock
